import Mathlib

/-!
Verification of the resilient kubeconfig manager
(`experiments/ho-platform-none/install-ho-platform-none/kubeconfig_manager.py`).

The Python class `KubeconfigManager` manages two credential files (the
management/GKE kubeconfig and the hosted-cluster kubeconfig) with retry,
backup and recovery logic.  We give a shallow embedding: the filesystem is
an association list from paths to file data; the external collaborators
(`gcloud`, `kubectl`, the YAML parser, base64 decoding, and the fallible
OS primitives mkdir / open-for-write / chmod / rename / stat) are oracles
collected in an `Env` record; the manager's methods become pure functions
from (environment, config, filesystem, clock) to a result carrying the
returned boolean, the new filesystem, the new clock, and a trace of
observable events (attempts, sleeps, backups, recovery, renames, ...).
-/

/-- File data: raw content bytes, POSIX permission bits, modification time. -/
structure FileInfo where
  content : String
  mode : Nat
  mtime : Nat
deriving Repr, DecidableEq

/-- A filesystem: an association list from full paths to file data. -/
abbrev FS := List (String × FileInfo)

/-- Read a file (`open(path)` / `stat`): the first entry with the given path. -/
def FS.read (fs : FS) (p : String) : Option FileInfo :=
  (fs.find? (fun e => e.1 = p)).map (·.2)

/-- `Path(p).exists()`. -/
def FS.existsF (fs : FS) (p : String) : Bool :=
  (fs.read p).isSome

/-- Write (create or truncate) a file. -/
def FS.write (fs : FS) (p : String) (fi : FileInfo) : FS :=
  (p, fi) :: fs.filter (fun e => ¬ e.1 = p)

/-- `os.unlink`. -/
def FS.remove (fs : FS) (p : String) : FS :=
  fs.filter (fun e => ¬ e.1 = p)

/-- `os.chmod`: update the permission bits of an existing file. -/
def FS.chmodF (fs : FS) (p : String) (m : Nat) : FS :=
  fs.map (fun e => if e.1 = p then (e.1, { e.2 with mode := m }) else e)

/-- `os.rename src dst`: move the file, keeping content, mode and mtime. -/
def FS.renameF (fs : FS) (src dst : String) : FS :=
  match fs.read src with
  | none => fs
  | some fi => (fs.remove src).write dst fi

/-- Modification time of a file (`stat().st_mtime`), 0 if absent. -/
def mtimeOf (fs : FS) (p : String) : Nat :=
  ((fs.read p).map (·.mtime)).getD 0

/-- Split a character list on `'/'` (the components of a path). -/
def splitPath : List Char → List (List Char)
  | [] => [[]]
  | c :: rest =>
    let r := splitPath rest
    if c = '/' then [] :: r
    else
      match r with
      | [] => [[c]]
      | h :: rtl => (c :: h) :: rtl

/-- Join path components with `'/'`. -/
def joinSlash : List (List Char) → List Char
  | [] => []
  | [x] => x
  | x :: xs => x ++ '/' :: joinSlash xs

/-- `Path(p).name`: the final path component. -/
def basename (p : String) : String :=
  ⟨(splitPath p.data).getLastD []⟩

/-- `Path(p).parent` as a string: everything before the final component. -/
def dirname (p : String) : String :=
  ⟨joinSlash (splitPath p.data).dropLast⟩

/-- Byte-wise string prefix test (Python `str.startswith`). -/
def strIsPrefixOf (a b : String) : Bool :=
  a.data.isPrefixOf b.data

/-- Whether `p` is matched by the glob `{basename target}.backup.*` run in
`target`'s directory (source line 476). -/
def backupMatch (target p : String) : Bool :=
  dirname p = dirname target && strIsPrefixOf (basename target ++ ".backup.") (basename p)

/-- Python `str.strip()`: remove leading and trailing whitespace (used
as a truthiness test on the fetched secret, source line 171). -/
def pyStrip (s : String) : String :=
  ⟨((s.data.dropWhile Char.isWhitespace).reverse.dropWhile Char.isWhitespace).reverse⟩

/-- Parsed YAML/JSON values, as far as the manager inspects them
(`yaml.safe_load` output: mappings, sequences, scalars). -/
inductive Yaml where
  | mapping (entries : List (String × Yaml))
  | sequence (items : List Yaml)
  | scalar (s : String)

/-- Python `key in dict` / `dict[key]` on a parsed mapping. -/
def yamlLookup : List (String × Yaml) → String → Option Yaml
  | [], _ => none
  | (k, v) :: rest, key => if k = key then some v else yamlLookup rest key

/-- Observable events of a run: loop attempts, sleeps, backup creation,
directory creation, entering recovery, recovery candidates tried, renames,
temporary-file writes and chmods.  `attemptEv`/`acquireEv`/`recoveryEv`
carry the role (`"gke"` or `"hosted"`). -/
inductive Ev where
  | attemptEv (role : String) (n : Nat)
  | acquireEv (role : String) (n : Nat)
  | sleepEv (secs : Nat)
  | backupEv (src : String) (dst : String)
  | mkdirEv (dir : String) (mode : Nat)
  | recoveryEv (role : String)
  | tryBackupEv (p : String)
  | renameEv (src : String) (dst : String)
  | tempWriteEv (p : String)
  | chmodEv (p : String) (mode : Nat)
deriving Repr, DecidableEq

def Ev.isAttempt : Ev → Bool
  | .attemptEv _ _ => true
  | _ => false

def Ev.isAcquire : Ev → Bool
  | .acquireEv _ _ => true
  | _ => false

def Ev.isSleep : Ev → Bool
  | .sleepEv _ => true
  | _ => false

def Ev.isBackup : Ev → Bool
  | .backupEv _ _ => true
  | _ => false

def Ev.isRecovery : Ev → Bool
  | .recoveryEv _ => true
  | _ => false

/-- Environment of external collaborators and fallible OS primitives.
`gkeAcquire n fs` models the `gcloud container clusters get-credentials`
call of attempt `n` (it may write the kubeconfig file itself, hence the
filesystem argument and result); `hostedSecret n` models the
`kubectl get secret admin-kubeconfig ... -o jsonpath` call of attempt `n`
(success flag and the base64 output); `b64decode` models
`base64.b64decode(...).decode("utf-8")` (`none` = exception); `parseYaml`
models `yaml.safe_load` (`none` = parse error); `conn p` models
`kubectl cluster-info` run with `KUBECONFIG=p`; `dirOk d` whether
`mkdir(parents=True, exist_ok=True, mode=0o700)` of directory `d`
succeeds; `statOk`, `writeOk`, `chmodOk`, `renameOk` whether `os.stat`,
open-for-write, `os.chmod`, `os.rename` (keyed by source path) succeed. -/
structure Env where
  gkeAcquire : Nat → FS → Bool × FS
  hostedSecret : Nat → Bool × String
  b64decode : String → Option String
  parseYaml : String → Option Yaml
  conn : String → Bool
  dirOk : String → Bool
  statOk : String → Bool
  writeOk : String → Bool
  chmodOk : String → Bool
  renameOk : String → Bool

/-- Configuration fields the manager reads. -/
structure Config where
  kubeconfig_gke_path : String
  kubeconfig_hosted_path : String
  dry_run : Bool

/-- `self.max_retries = 3` (source line 40). -/
def maxRetries : Nat := 3

/-- `self.retry_delay = 5` (source line 41). -/
def retryDelay : Nat := 5

/-- `range(1, self.max_retries + 1)` (source lines 73 and 158). -/
def attemptList : List Nat := List.range' 1 maxRetries

/-- Result of a recovery call: returned boolean, new filesystem, events. -/
structure RecResult where
  ok : Bool
  fs : FS
  evs : List Ev
deriving Repr, DecidableEq

/-- Result of a `create_*_kubeconfig` / `refresh_kubeconfigs` call:
returned boolean, new filesystem, new clock, events. -/
structure RunResult where
  ok : Bool
  fs : FS
  time : Nat
  evs : List Ev
deriving Repr, DecidableEq

/-- Result of `_create_backup`: the optional backup path, new filesystem,
events. -/
structure BackupResult where
  backupPath : Option String
  fs : FS
  evs : List Ev
deriving Repr, DecidableEq

/-- The check `isinstance(config_data[key], list) and len(config_data[key]) > 0`
(source line 346) on an optional mapping entry. -/
def nonEmptySeq (o : Option Yaml) : Bool :=
  match o with
  | some (.sequence items) => decide (items.length > 0)
  | _ => false

/-- The checks of `_validate_kubeconfig_file` on the parsed document
(source lines 335-351): `none` stands for a `yaml.safe_load` exception;
the value must be a mapping, the three required keys must be present
(lines 339-343), and each must map to a non-empty sequence (lines
345-349). -/
def validateParsed (o : Option Yaml) : Bool :=
  match o with
  | none => false
  | some (.mapping m) =>
    (["clusters", "contexts", "users"].all (fun k => (yamlLookup m k).isSome)) &&
    (["clusters", "contexts", "users"].all (fun k => nonEmptySeq (yamlLookup m k)))
  | some _ => false

/-- `_validate_kubeconfig_file` (source lines 320-355): read the file,
parse it, require a mapping whose three keys `clusters`, `contexts`,
`users` are present and map to non-empty sequences.  Any exception
(unreadable file, parse error) is caught and yields `false`.  The
`ctype` argument is received and ignored, as in the source. -/
def validateKubeconfigFile (env : Env) (fs : FS) (path ctype : String) : Bool :=
  match fs.read path with
  | none => false
  | some fi => validateParsed (env.parseYaml fi.content)

/-- `_test_kubeconfig_connectivity` (source lines 357-381): run
`kubectl cluster-info` with `KUBECONFIG=path`. -/
def testKubeconfigConnectivity (env : Env) (path : String) : Bool :=
  env.conn path

/-- Whether the permission check inside `_is_kubeconfig_valid` (source
lines 305-311) would log its warning: `os.stat` succeeded and
`st_mode & 0o077` is non-zero.  The source only logs here; the check
never influences the returned value. -/
def permissionWarningLogged (env : Env) (fs : FS) (path : String) : Bool :=
  if env.statOk path then
    match fs.read path with
    | some fi => decide (fi.mode &&& 0o077 ≠ 0)
    | none => false
  else false

/-- `_is_kubeconfig_valid` (source lines 291-318): the file must exist,
pass structural validation, and pass the connectivity probe.  The
permission check between the existence test and the structural check
(`permissionWarningLogged`) only logs a warning and is dropped here
because it does not touch the result or the state. -/
def isKubeconfigValid (env : Env) (fs : FS) (path ctype : String) : Bool :=
  match fs.read path with
  | none => false
  | some _ =>
    validateKubeconfigFile env fs path ctype && testKubeconfigConnectivity env path

/-- `_ensure_directory_exists` (source lines 383-399): `mkdir -p` of the
file's parent with mode `0o700`; an exception yields `false`. -/
def ensureDirectoryExists (env : Env) (file_path : String) : Bool :=
  env.dirOk (dirname file_path)

/-- `_set_secure_permissions` (source lines 401-416): `chmod 0o600`;
an exception is caught, logged, and yields `false`. -/
def setSecurePermissions (env : Env) (fs : FS) (path : String) : Bool × FS × List Ev :=
  if env.chmodOk path then
    (true, fs.chmodF path 0o600, [Ev.chmodEv path 0o600])
  else
    (false, fs, [])

/-- `_create_backup` (source lines 418-444): copy the file's bytes to
`{path}.backup.{int(time.time())}` and replicate the original permission
bits onto the copy; any exception is caught and yields `none` with no
new file. -/
def createBackup (env : Env) (fs : FS) (t : Nat) (path : String) : BackupResult :=
  let backup_path := path ++ ".backup." ++ toString t
  match fs.read path with
  | none => ⟨none, fs, []⟩
  | some fi =>
    if env.writeOk backup_path then
      ⟨some backup_path, fs.write backup_path ⟨fi.content, fi.mode, t⟩,
        [Ev.backupEv path backup_path]⟩
    else
      ⟨none, fs, []⟩

/-- The glob `Path(path).parent.glob(f"{Path(path).name}.backup.*")`
(source line 476): paths of the filesystem entries matching the pattern. -/
def backupCandidates (fs : FS) (path : String) : List String :=
  (fs.filter (fun e => backupMatch path e.1)).map (·.1)

/-- `backup_files.sort(key=lambda x: x.stat().st_mtime, reverse=True)`
(source line 477): stable sort, most recent modification time first. -/
def sortByMtimeDesc (fs : FS) (ps : List String) : List String :=
  ps.mergeSort (fun a b => decide (mtimeOf fs b ≤ mtimeOf fs a))

/-- The ordered candidate list recovery iterates over (source lines
476-477). -/
def recoveryCandidates (fs : FS) (path : String) : List String :=
  sortByMtimeDesc fs (backupCandidates fs path)

/-- The loop body of `_attempt_recovery` (source lines 479-489): try each
candidate in order; the first one that is valid and whose rename onto the
target succeeds is moved there; a rename failure skips to the next
candidate. -/
def recoveryLoop (env : Env) (fs : FS) (path ctype : String) : List String → RecResult
  | [] => ⟨false, fs, []⟩
  | b :: rest =>
    if isKubeconfigValid env fs b ctype then
      if env.renameOk b then
        ⟨true, fs.renameF b path, [Ev.tryBackupEv b, Ev.renameEv b path]⟩
      else
        let r := recoveryLoop env fs path ctype rest
        ⟨r.ok, r.fs, Ev.tryBackupEv b :: r.evs⟩
    else
      let r := recoveryLoop env fs path ctype rest
      ⟨r.ok, r.fs, Ev.tryBackupEv b :: r.evs⟩

/-- `_attempt_recovery` (source lines 462-492). -/
def attemptRecovery (env : Env) (fs : FS) (path ctype : String) : RecResult :=
  let r := recoveryLoop env fs path ctype (recoveryCandidates fs path)
  ⟨r.ok, r.fs, Ev.recoveryEv ctype :: r.evs⟩

/-- The retry loop of `create_gke_kubeconfig` (source lines 73-124),
recursing over the remaining attempt numbers; the empty list is the
fall-through to `_attempt_recovery` at line 124.  Each iteration invokes
the `gcloud` acquisition oracle; on tool failure or structural-validation
failure it sleeps `retry_delay` and retries when attempts remain, else
enters recovery; on validation success it applies
`_set_secure_permissions` (whose failure only warns) and returns `true`. -/
def gkeLoop (env : Env) (path : String) : Nat → FS → List Nat → RunResult
  | t, fs, [] =>
    let r := attemptRecovery env fs path "gke"
    ⟨r.ok, r.fs, t, r.evs⟩
  | t, fs, n :: rest =>
    let acq := env.gkeAcquire n fs
    let evs0 := [Ev.attemptEv "gke" n, Ev.acquireEv "gke" n]
    if acq.1 = false then
      if rest.isEmpty then
        let r := attemptRecovery env acq.2 path "gke"
        ⟨r.ok, r.fs, t, evs0 ++ r.evs⟩
      else
        let r := gkeLoop env path (t + retryDelay) acq.2 rest
        ⟨r.ok, r.fs, r.time, evs0 ++ Ev.sleepEv retryDelay :: r.evs⟩
    else if validateKubeconfigFile env acq.2 path "gke" then
      let sp := setSecurePermissions env acq.2 path
      ⟨true, sp.2.1, t, evs0 ++ sp.2.2⟩
    else if rest.isEmpty then
      let r := attemptRecovery env acq.2 path "gke"
      ⟨r.ok, r.fs, t, evs0 ++ r.evs⟩
    else
      let r := gkeLoop env path (t + retryDelay) acq.2 rest
      ⟨r.ok, r.fs, r.time, evs0 ++ Ev.sleepEv retryDelay :: r.evs⟩

/-- `create_gke_kubeconfig` (source lines 44-124): fast path when a valid
kubeconfig exists and recreation is not forced; directory creation
failure returns `false` immediately; a backup is made once, before the
retry loop, when the target pre-exists; then the retry loop runs. -/
def createGkeKubeconfig (env : Env) (cfg : Config) (force_recreate : Bool)
    (fs : FS) (t : Nat) : RunResult :=
  let path := cfg.kubeconfig_gke_path
  if force_recreate = false ∧ isKubeconfigValid env fs path "gke" = true then
    ⟨true, fs, t, []⟩
  else if ensureDirectoryExists env path = false then
    ⟨false, fs, t, []⟩
  else
    let bk : FS × List Ev :=
      if fs.existsF path then
        let b := createBackup env fs t path
        (b.fs, b.evs)
      else (fs, [])
    let r := gkeLoop env path t bk.1 attemptList
    ⟨r.ok, r.fs, r.time, Ev.mkdirEv (dirname path) 0o700 :: bk.2 ++ r.evs⟩

/-- The decode-and-check of the fetched secret (source lines 182-188):
base64-decode, parse, require a mapping containing the key `clusters`. -/
def hostedDataOk (env : Env) (data : String) : Bool :=
  match env.parseYaml data with
  | some (.mapping m) => (yamlLookup m "clusters").isSome
  | _ => false

/-- The secure write of `create_hosted_kubeconfig` (source lines 200-216):
write the content to `{path}.tmp`, `chmod 0o600`, atomically rename over
the target; on an exception the temporary file is unlinked if it exists
and the attempt falls through to `continue`. -/
def hostedWriteStep (env : Env) (fs : FS) (t : Nat) (path content : String) :
    Bool × FS × List Ev :=
  let temp := path ++ ".tmp"
  if env.writeOk temp then
    let fs1 := fs.write temp ⟨content, 0o644, t⟩
    if env.chmodOk temp then
      let fs2 := fs1.chmodF temp 0o600
      if env.renameOk temp then
        (true, fs2.renameF temp path,
          [Ev.tempWriteEv temp, Ev.chmodEv temp 0o600, Ev.renameEv temp path])
      else
        (false, fs2.remove temp, [Ev.tempWriteEv temp, Ev.chmodEv temp 0o600])
    else
      (false, fs1.remove temp, [Ev.tempWriteEv temp])
  else
    (false, fs, [])

/-- The retry loop of `create_hosted_kubeconfig` (source lines 158-244),
recursing over the remaining attempt numbers; the empty list is the
fall-through to `_attempt_recovery` at line 244.  Each iteration fetches
the secret; tool failure / blank output and decode failure sleep and
retry (or enter recovery on the last attempt); a write-step failure
retries immediately with no sleep (the bare `continue` at line 216);
structural-validation failure sleeps and retries (or falls through to
recovery); validation success returns `true`. -/
def hostedLoop (env : Env) (dry_run : Bool) (path : String) :
    Nat → FS → List Nat → RunResult
  | t, fs, [] =>
    let r := attemptRecovery env fs path "hosted"
    ⟨r.ok, r.fs, t, r.evs⟩
  | t, fs, n :: rest =>
    let fetch := env.hostedSecret n
    let evs0 := [Ev.attemptEv "hosted" n, Ev.acquireEv "hosted" n]
    if fetch.1 = false ∨ pyStrip fetch.2 = "" then
      if rest.isEmpty then
        let r := attemptRecovery env fs path "hosted"
        ⟨r.ok, r.fs, t, evs0 ++ r.evs⟩
      else
        let r := hostedLoop env dry_run path (t + retryDelay) fs rest
        ⟨r.ok, r.fs, r.time, evs0 ++ Ev.sleepEv retryDelay :: r.evs⟩
    else
      match env.b64decode fetch.2 with
      | none =>
        if rest.isEmpty then
          let r := attemptRecovery env fs path "hosted"
          ⟨r.ok, r.fs, t, evs0 ++ r.evs⟩
        else
          let r := hostedLoop env dry_run path (t + retryDelay) fs rest
          ⟨r.ok, r.fs, r.time, evs0 ++ Ev.sleepEv retryDelay :: r.evs⟩
      | some data =>
        if hostedDataOk env data = false then
          if rest.isEmpty then
            let r := attemptRecovery env fs path "hosted"
            ⟨r.ok, r.fs, t, evs0 ++ r.evs⟩
          else
            let r := hostedLoop env dry_run path (t + retryDelay) fs rest
            ⟨r.ok, r.fs, r.time, evs0 ++ Ev.sleepEv retryDelay :: r.evs⟩
        else if dry_run then
          if validateKubeconfigFile env fs path "hosted" then
            ⟨true, fs, t, evs0⟩
          else if rest.isEmpty then
            let r := attemptRecovery env fs path "hosted"
            ⟨r.ok, r.fs, t, evs0 ++ r.evs⟩
          else
            let r := hostedLoop env dry_run path (t + retryDelay) fs rest
            ⟨r.ok, r.fs, r.time, evs0 ++ Ev.sleepEv retryDelay :: r.evs⟩
        else
          let w := hostedWriteStep env fs t path data
          if w.1 = false then
            if rest.isEmpty then
              let r := attemptRecovery env w.2.1 path "hosted"
              ⟨r.ok, r.fs, t, evs0 ++ w.2.2 ++ r.evs⟩
            else
              let r := hostedLoop env dry_run path t w.2.1 rest
              ⟨r.ok, r.fs, r.time, evs0 ++ w.2.2 ++ r.evs⟩
          else if validateKubeconfigFile env w.2.1 path "hosted" then
            ⟨true, w.2.1, t, evs0 ++ w.2.2⟩
          else if rest.isEmpty then
            let r := attemptRecovery env w.2.1 path "hosted"
            ⟨r.ok, r.fs, t, evs0 ++ w.2.2 ++ r.evs⟩
          else
            let r := hostedLoop env dry_run path (t + retryDelay) w.2.1 rest
            ⟨r.ok, r.fs, r.time, evs0 ++ w.2.2 ++ Ev.sleepEv retryDelay :: r.evs⟩

/-- `create_hosted_kubeconfig` (source lines 126-244): fast path, fatal
directory check, single pre-loop backup, then the retry loop. -/
def createHostedKubeconfig (env : Env) (cfg : Config) (force_recreate : Bool)
    (fs : FS) (t : Nat) : RunResult :=
  let path := cfg.kubeconfig_hosted_path
  if force_recreate = false ∧ isKubeconfigValid env fs path "hosted" = true then
    ⟨true, fs, t, []⟩
  else if ensureDirectoryExists env path = false then
    ⟨false, fs, t, []⟩
  else
    let bk : FS × List Ev :=
      if fs.existsF path then
        let b := createBackup env fs t path
        (b.fs, b.evs)
      else (fs, [])
    let r := hostedLoop env cfg.dry_run path t bk.1 attemptList
    ⟨r.ok, r.fs, r.time, Ev.mkdirEv (dirname path) 0o700 :: bk.2 ++ r.evs⟩

/-- `refresh_kubeconfigs` (source lines 269-289): force-recreate the GKE
kubeconfig, and only if that succeeds force-recreate the hosted one. -/
def refreshKubeconfigs (env : Env) (cfg : Config) (fs : FS) (t : Nat) : RunResult :=
  let g := createGkeKubeconfig env cfg true fs t
  if g.ok = false then
    ⟨false, g.fs, g.time, g.evs⟩
  else
    let h := createHostedKubeconfig env cfg true g.fs g.time
    ⟨h.ok, h.fs, h.time, g.evs ++ h.evs⟩

/-- `validate_all_kubeconfigs` (source lines 246-267). -/
def validateAllKubeconfigs (env : Env) (cfg : Config) (fs : FS) : Bool :=
  isKubeconfigValid env fs cfg.kubeconfig_gke_path "gke" &&
  isKubeconfigValid env fs cfg.kubeconfig_hosted_path "hosted"

/-! ### Helper lemmas -/

theorem nonEmptySeq_iff (o : Option Yaml) :
    nonEmptySeq o = true ↔ ∃ items, o = some (.sequence items) ∧ items ≠ [] := by
  cases o with
  | none => simp [nonEmptySeq]
  | some y => cases y <;> simp [nonEmptySeq, List.length_pos]

theorem fsRead_cons (e : String × FileInfo) (fs : FS) (q : String) :
    FS.read (e :: fs) q = if e.1 = q then some e.2 else FS.read fs q := by
  by_cases h : e.1 = q <;> simp [FS.read, List.find?_cons, h]

theorem read_chmodF (fs : FS) (p : String) (m : Nat) (q : String) :
    FS.read (FS.chmodF fs p m) q =
      if q = p then (FS.read fs q).map (fun fi => { fi with mode := m })
      else FS.read fs q := by
  induction fs with
  | nil => by_cases h : q = p <;> simp [FS.read, FS.chmodF, h]
  | cons e rest ih =>
    have hchmod : FS.chmodF (e :: rest) p m =
        (if e.1 = p then (e.1, { e.2 with mode := m }) else e) :: FS.chmodF rest p m := rfl
    rw [hchmod]
    by_cases hqp : q = p
    · subst hqp
      by_cases hep : e.1 = q
      · simp [fsRead_cons, hep]
      · simp [fsRead_cons, hep, ih]
    · have hpq : ¬ p = q := fun h => hqp h.symm
      by_cases hep : e.1 = p
      · have heq : ¬ e.1 = q := fun h => hqp (by rw [← h, hep])
        simp [fsRead_cons, hep, heq, hqp, hpq, ih]
      · by_cases heq : e.1 = q <;> simp [fsRead_cons, hep, heq, hqp, hpq, ih]

theorem validate_chmod_invariant (env : Env) (fs : FS) (path ctype : String) (m : Nat) :
    validateKubeconfigFile env (FS.chmodF fs path m) path ctype =
      validateKubeconfigFile env fs path ctype := by
  unfold validateKubeconfigFile
  rw [read_chmodF, if_pos rfl]
  cases h : FS.read fs path <;> simp

/-! ### Demo environment used by witnesses -/

/-- A structurally valid kubeconfig document. -/
def goodYaml : Yaml :=
  Yaml.mapping [("clusters", Yaml.sequence [Yaml.scalar "c"]),
    ("contexts", Yaml.sequence [Yaml.scalar "x"]),
    ("users", Yaml.sequence [Yaml.scalar "u"])]

/-- A parser that accepts exactly the content `"GOOD"`. -/
def demoParse : String → Option Yaml :=
  fun s => if s = "GOOD" then some goodYaml else none

/-- A benign environment: acquisitions fail, everything else succeeds. -/
def demoEnvOk : Env :=
  { gkeAcquire := fun _ fs => (false, fs)
    hostedSecret := fun _ => (false, "")
    b64decode := fun _ => none
    parseYaml := demoParse
    conn := fun _ => true
    dirOk := fun _ => true
    statOk := fun _ => true
    writeOk := fun _ => true
    chmodOk := fun _ => true
    renameOk := fun _ => true }

def demoCfg : Config :=
  { kubeconfig_gke_path := "/r/gke"
    kubeconfig_hosted_path := "/r/hosted"
    dry_run := false }

def demoFS : FS :=
  [("/r/gke", ⟨"GOOD", 0o600, 10⟩), ("/r/hosted", ⟨"GOOD", 0o600, 11⟩)]

def demoEnvNoDir : Env := { demoEnvOk with dirOk := fun _ => false }

/-! ### Claim theorems -/

/-- C6: for every path and cluster type, `_is_kubeconfig_valid` returns
true iff the file exists AND passes structural validation AND passes the
connectivity probe; structure without connectivity (or the reverse, or
mere existence) is judged invalid. -/
theorem validity_conjunctive (env : Env) (fs : FS) (path ctype : String) :
    isKubeconfigValid env fs path ctype =
      (FS.existsF fs path && validateKubeconfigFile env fs path ctype &&
        testKubeconfigConnectivity env path) := by
  unfold isKubeconfigValid FS.existsF
  cases h : FS.read fs path <;> simp [h]

theorem validity_conjunctive_witness :
    isKubeconfigValid demoEnvOk demoFS "/r/gke" "gke" =
      (FS.existsF demoFS "/r/gke" && validateKubeconfigFile demoEnvOk demoFS "/r/gke" "gke" &&
        testKubeconfigConnectivity demoEnvOk "/r/gke") :=
  validity_conjunctive demoEnvOk demoFS "/r/gke" "gke"

/-- C7: the structural validator succeeds iff the file is readable, its
content parses, the top-level value is a mapping, and each of the keys
`clusters`, `contexts`, `users` maps to a non-empty sequence; it fails in
every other case (it never raises — exceptions map to `false` — and it is
read-only by construction: it consumes the filesystem and returns only a
boolean). -/
theorem structural_validator_iff (env : Env) (fs : FS) (path ctype : String) :
    validateKubeconfigFile env fs path ctype = true ↔
      ∃ fi m, FS.read fs path = some fi ∧
        env.parseYaml fi.content = some (.mapping m) ∧
        ∀ k ∈ ["clusters", "contexts", "users"],
          ∃ items, yamlLookup m k = some (.sequence items) ∧ items ≠ [] := by
  have hparsed : ∀ o : Option Yaml, validateParsed o = true ↔
      ∃ m, o = some (.mapping m) ∧
        ∀ k ∈ ["clusters", "contexts", "users"],
          ∃ items, yamlLookup m k = some (.sequence items) ∧ items ≠ [] := by
    intro o
    cases o with
    | none => simp [validateParsed]
    | some y =>
      cases y with
      | mapping m0 =>
        constructor
        · intro hb
          have hb2 : (["clusters", "contexts", "users"].all
                (fun k => (yamlLookup m0 k).isSome) &&
              ["clusters", "contexts", "users"].all
                (fun k => nonEmptySeq (yamlLookup m0 k))) = true := hb
          rw [Bool.and_eq_true, List.all_eq_true, List.all_eq_true] at hb2
          exact ⟨m0, rfl, fun k hk => (nonEmptySeq_iff _).mp (hb2.2 k hk)⟩
        · rintro ⟨m2, hm, hall⟩
          injection hm with hm2
          injection hm2 with hm3
          subst hm3
          show (_ && _) = true
          rw [Bool.and_eq_true, List.all_eq_true, List.all_eq_true]
          refine ⟨fun k hk => ?_, fun k hk => (nonEmptySeq_iff _).mpr (hall k hk)⟩
          obtain ⟨items, hi, _⟩ := hall k hk
          simp [hi]
      | sequence its =>
        constructor
        · intro hb; simp [validateParsed] at hb
        · rintro ⟨m2, hm, h3⟩
          injection hm with hm2
          exact Yaml.noConfusion hm2
      | scalar s =>
        constructor
        · intro hb; simp [validateParsed] at hb
        · rintro ⟨m2, hm, h3⟩
          injection hm with hm2
          exact Yaml.noConfusion hm2
  unfold validateKubeconfigFile
  cases h : FS.read fs path with
  | none => simp
  | some fi =>
    rw [hparsed (env.parseYaml fi.content)]
    constructor
    · rintro ⟨m0, hp, hall⟩
      exact ⟨fi, m0, rfl, hp, hall⟩
    · rintro ⟨fi2, m0, hfi, hp, hall⟩
      injection hfi with hfi2
      subst hfi2
      exact ⟨m0, hp, hall⟩

theorem structural_validator_iff_witness :
    validateKubeconfigFile demoEnvOk demoFS "/r/gke" "gke" = true ↔
      ∃ fi m, FS.read demoFS "/r/gke" = some fi ∧
        demoEnvOk.parseYaml fi.content = some (.mapping m) ∧
        ∀ k ∈ ["clusters", "contexts", "users"],
          ∃ items, yamlLookup m k = some (.sequence items) ∧ items ≠ [] :=
  structural_validator_iff demoEnvOk demoFS "/r/gke" "gke"

/-- C3: with `force_recreate = False` and a target that already passes
both validation and connectivity, both acquire operations return success
immediately, leave the filesystem (hence the target file) untouched, and
emit no events at all: no acquisition, no backup, no retry, no recovery. -/
theorem idempotent_fast_path (env : Env) (cfg : Config) (fs : FS) (t : Nat)
    (hg : isKubeconfigValid env fs cfg.kubeconfig_gke_path "gke" = true)
    (hh : isKubeconfigValid env fs cfg.kubeconfig_hosted_path "hosted" = true) :
    createGkeKubeconfig env cfg false fs t = ⟨true, fs, t, []⟩ ∧
    createHostedKubeconfig env cfg false fs t = ⟨true, fs, t, []⟩ := by
  constructor
  · simp [createGkeKubeconfig, hg]
  · simp [createHostedKubeconfig, hh]

theorem idempotent_fast_path_witness :
    isKubeconfigValid demoEnvOk demoFS "/r/gke" "gke" = true ∧
    createGkeKubeconfig demoEnvOk demoCfg false demoFS 7 = ⟨true, demoFS, 7, []⟩ ∧
    createHostedKubeconfig demoEnvOk demoCfg false demoFS 7 = ⟨true, demoFS, 7, []⟩ := by
  have h := idempotent_fast_path demoEnvOk demoCfg demoFS 7 (by decide) (by decide)
  exact ⟨by decide, h.1, h.2⟩

/-- C8: if creating the target's parent directory fails, both acquire
operations return `false` immediately with the filesystem untouched and
an empty event trace: no acquisition attempt, no retry, no recovery, and
the target credential file is unchanged.  (The hypothesis rules out the
fast path, which would return before the directory check.) -/
theorem directory_failure_fatal (env : Env) (cfg : Config) (force : Bool) (fs : FS) (t : Nat)
    (hg : env.dirOk (dirname cfg.kubeconfig_gke_path) = false)
    (hh : env.dirOk (dirname cfg.kubeconfig_hosted_path) = false)
    (hfg : force = true ∨ isKubeconfigValid env fs cfg.kubeconfig_gke_path "gke" = false)
    (hfh : force = true ∨ isKubeconfigValid env fs cfg.kubeconfig_hosted_path "hosted" = false) :
    createGkeKubeconfig env cfg force fs t = ⟨false, fs, t, []⟩ ∧
    createHostedKubeconfig env cfg force fs t = ⟨false, fs, t, []⟩ := by
  constructor
  · have hc : ¬ (force = false ∧
        isKubeconfigValid env fs cfg.kubeconfig_gke_path "gke" = true) := by
      rcases hfg with h | h <;> simp [h]
    simp [createGkeKubeconfig, hc, ensureDirectoryExists, hg]
  · have hc : ¬ (force = false ∧
        isKubeconfigValid env fs cfg.kubeconfig_hosted_path "hosted" = true) := by
      rcases hfh with h | h <;> simp [h]
    simp [createHostedKubeconfig, hc, ensureDirectoryExists, hh]

theorem directory_failure_fatal_witness :
    demoEnvNoDir.dirOk (dirname demoCfg.kubeconfig_gke_path) = false ∧
    createGkeKubeconfig demoEnvNoDir demoCfg true demoFS 7 = ⟨false, demoFS, 7, []⟩ ∧
    createHostedKubeconfig demoEnvNoDir demoCfg true demoFS 7 = ⟨false, demoFS, 7, []⟩ := by
  have h := directory_failure_fatal demoEnvNoDir demoCfg true demoFS 7 rfl rfl
    (Or.inl rfl) (Or.inl rfl)
  exact ⟨rfl, h.1, h.2⟩

/-- C10: the permission bits never make `_is_kubeconfig_valid` return
false: changing the target's mode arbitrarily does not change the
result; the result does not depend on whether `os.stat` succeeds (the
`statOk` oracle); and an existing file that passes structure and
connectivity is judged valid even when its mode allows group/world
access (the check at source lines 305-311, `permissionWarningLogged`,
only produces a log line). -/
theorem permission_check_warning_only (env : Env) (fs : FS) (path ctype : String)
    (m : Nat) (f : String → Bool) :
    isKubeconfigValid env (FS.chmodF fs path m) path ctype =
      isKubeconfigValid env fs path ctype ∧
    isKubeconfigValid { env with statOk := f } fs path ctype =
      isKubeconfigValid env fs path ctype ∧
    (∀ fi, FS.read fs path = some fi → fi.mode &&& 0o077 ≠ 0 →
      validateKubeconfigFile env fs path ctype = true →
      testKubeconfigConnectivity env path = true →
      isKubeconfigValid env fs path ctype = true) := by
  refine ⟨?_, rfl, ?_⟩
  · unfold isKubeconfigValid
    rw [read_chmodF, if_pos rfl, validate_chmod_invariant]
    cases h : FS.read fs path <;> simp
  · intro fi hfi _ hv hc
    unfold isKubeconfigValid
    rw [hfi]
    simp [hv, hc]

theorem permission_check_warning_only_witness :
    isKubeconfigValid demoEnvOk (FS.chmodF demoFS "/r/gke" 0o644) "/r/gke" "gke" =
      isKubeconfigValid demoEnvOk demoFS "/r/gke" "gke" :=
  (permission_check_warning_only demoEnvOk demoFS "/r/gke" "gke" 0o644 (fun _ => false)).1

/-! ### Filesystem lemmas -/

theorem find?_filter_of_imp {α : Type} (l : List α) (p f : α → Bool)
    (h : ∀ x, p x = true → f x = true) :
    (l.filter f).find? p = l.find? p := by
  induction l with
  | nil => rfl
  | cons a as ih =>
    by_cases hf : f a = true
    · by_cases hp : p a = true <;> simp [List.filter_cons, List.find?_cons, hf, hp, ih]
    · have hp : p a = false := by
        cases hpa : p a
        · rfl
        · exact absurd (h a hpa) hf
      simp [List.filter_cons, List.find?_cons, hf, hp, ih]

theorem read_write (fs : FS) (p : String) (fi : FileInfo) (q : String) :
    FS.read (fs.write p fi) q = if q = p then some fi else FS.read fs q := by
  unfold FS.read FS.write
  by_cases hq : q = p
  · subst hq
    simp [List.find?_cons]
  · rw [List.find?_cons]
    have : (decide ((p, fi).1 = q)) = false := by
      simp
      exact fun hc => hq hc.symm
    rw [this, if_neg hq]
    rw [find?_filter_of_imp]
    intro x hx
    simp at hx ⊢
    intro hc
    exact hq (by rw [← hx]; exact hc)

theorem read_remove (fs : FS) (p q : String) :
    FS.read (fs.remove p) q = if q = p then none else FS.read fs q := by
  unfold FS.read FS.remove
  by_cases hq : q = p
  · subst hq
    rw [if_pos rfl]
    have : (fs.filter (fun e => ¬ e.1 = q)).find? (fun e => e.1 = q) = none := by
      rw [List.find?_eq_none]
      intro x hx
      rw [List.mem_filter] at hx
      simpa using hx.2
    rw [this]
    rfl
  · rw [if_neg hq, find?_filter_of_imp]
    intro x hx
    simp at hx ⊢
    intro hc
    exact hq (by rw [← hx]; exact hc)

theorem read_renameF (fs : FS) (src dst : String) (fi : FileInfo)
    (hr : FS.read fs src = some fi) (q : String) :
    FS.read (fs.renameF src dst) q =
      if q = dst then some fi else if q = src then none else FS.read fs q := by
  unfold FS.renameF
  rw [hr, read_write, read_remove]

theorem existsF_iff (fs : FS) (p : String) :
    FS.existsF fs p = true ↔ ∃ e ∈ fs, e.1 = p := by
  unfold FS.existsF FS.read
  simp [List.find?_isSome]

/-! ### Backup name facts -/

theorem charListPrefix_length : ∀ (l1 l2 : List Char),
    l1.isPrefixOf l2 = true → l1.length ≤ l2.length := by
  intro l1
  induction l1 with
  | nil => intro l2 _; simp
  | cons a as ih =>
    intro l2 hp
    cases l2 with
    | nil => simp [List.isPrefixOf] at hp
    | cons b bs =>
      simp [List.isPrefixOf] at hp
      have hlen := hp.2.length_le
      simp
      omega

theorem backupMatch_ne (path p : String) (h : backupMatch path p = true) : p ≠ path := by
  intro hpp
  subst hpp
  unfold backupMatch at h
  rw [Bool.and_eq_true] at h
  have h2 := h.2
  unfold strIsPrefixOf at h2
  have h3 := charListPrefix_length _ _ h2
  rw [String.data_append] at h3
  rw [List.length_append] at h3
  have h8 : (".backup.").data.length = 8 := rfl
  omega

/-! ### Recovery selector -/

/-- Whether a recovery candidate would be reinstated when reached: it
passes `_is_kubeconfig_valid` and its rename onto the target succeeds. -/
def recoveryGood (env : Env) (fs : FS) (ctype b : String) : Bool :=
  isKubeconfigValid env fs b ctype && env.renameOk b

theorem recoveryLoop_spec (env : Env) (fs : FS) (path ctype : String) (l : List String) :
    ((recoveryLoop env fs path ctype l).ok = true ↔
      ∃ b ∈ l, recoveryGood env fs ctype b = true) ∧
    ((recoveryLoop env fs path ctype l).ok = true →
      ∃ pre b post, l = pre ++ b :: post ∧
        (∀ a ∈ pre, recoveryGood env fs ctype a = false) ∧
        recoveryGood env fs ctype b = true ∧
        (recoveryLoop env fs path ctype l).fs = FS.renameF fs b path ∧
        (recoveryLoop env fs path ctype l).evs =
          pre.map Ev.tryBackupEv ++ [Ev.tryBackupEv b, Ev.renameEv b path]) ∧
    ((recoveryLoop env fs path ctype l).ok = false →
      (recoveryLoop env fs path ctype l).fs = fs ∧
      (recoveryLoop env fs path ctype l).evs = l.map Ev.tryBackupEv) := by
  induction l with
  | nil => simp [recoveryLoop]
  | cons b rest ih =>
    by_cases hv : isKubeconfigValid env fs b ctype = true
    · by_cases hr : env.renameOk b = true
      · have hg : recoveryGood env fs ctype b = true := by
          simp [recoveryGood, hv, hr]
        refine ⟨?_, ?_, ?_⟩
        · simp [recoveryLoop, hv, hr]
          exact Or.inl hg
        · intro _
          exact ⟨[], b, rest, rfl, by simp, hg,
            by simp [recoveryLoop, hv, hr], by simp [recoveryLoop, hv, hr]⟩
        · intro hok
          simp [recoveryLoop, hv, hr] at hok
      · have hg : recoveryGood env fs ctype b = false := by
          simp [recoveryGood, hr]
        have hred : recoveryLoop env fs path ctype (b :: rest) =
            ⟨(recoveryLoop env fs path ctype rest).ok,
             (recoveryLoop env fs path ctype rest).fs,
             Ev.tryBackupEv b :: (recoveryLoop env fs path ctype rest).evs⟩ := by
          simp [recoveryLoop, hv, hr]
        refine ⟨?_, ?_, ?_⟩
        · rw [hred]
          simp only [List.mem_cons]
          constructor
          · intro hok
            obtain ⟨c, hc, hcg⟩ := ih.1.mp hok
            exact ⟨c, Or.inr hc, hcg⟩
          · rintro ⟨c, hc | hc, hcg⟩
            · subst hc
              rw [hg] at hcg
              exact absurd hcg (by simp)
            · exact ih.1.mpr ⟨c, hc, hcg⟩
        · intro hok
          rw [hred] at hok
          obtain ⟨pre, c, post, hl, hpre, hcg, hfs, hevs⟩ := ih.2.1 hok
          refine ⟨b :: pre, c, post, by rw [hl]; rfl, ?_, hcg, by rw [hred]; exact hfs,
            by rw [hred]; simp [hevs]⟩
          intro a ha
          rcases List.mem_cons.mp ha with h | h
          · subst h; exact hg
          · exact hpre a h
        · intro hok
          rw [hred] at hok
          obtain ⟨hfs, hevs⟩ := ih.2.2 hok
          exact ⟨by rw [hred]; exact hfs, by rw [hred]; simp [hevs]⟩
    · have hg : recoveryGood env fs ctype b = false := by
        simp [recoveryGood]
        intro hc
        exact absurd hc hv
      have hred : recoveryLoop env fs path ctype (b :: rest) =
          ⟨(recoveryLoop env fs path ctype rest).ok,
           (recoveryLoop env fs path ctype rest).fs,
           Ev.tryBackupEv b :: (recoveryLoop env fs path ctype rest).evs⟩ := by
        simp [recoveryLoop, hv]
      refine ⟨?_, ?_, ?_⟩
      · rw [hred]
        simp only [List.mem_cons]
        constructor
        · intro hok
          obtain ⟨c, hc, hcg⟩ := ih.1.mp hok
          exact ⟨c, Or.inr hc, hcg⟩
        · rintro ⟨c, hc | hc, hcg⟩
          · subst hc
            rw [hg] at hcg
            exact absurd hcg (by simp)
          · exact ih.1.mpr ⟨c, hc, hcg⟩
      · intro hok
        rw [hred] at hok
        obtain ⟨pre, c, post, hl, hpre, hcg, hfs, hevs⟩ := ih.2.1 hok
        refine ⟨b :: pre, c, post, by rw [hl]; rfl, ?_, hcg, by rw [hred]; exact hfs,
          by rw [hred]; simp [hevs]⟩
        intro a ha
        rcases List.mem_cons.mp ha with h | h
        · subst h; exact hg
        · exact hpre a h
      · intro hok
        rw [hred] at hok
        obtain ⟨hfs, hevs⟩ := ih.2.2 hok
        exact ⟨by rw [hred]; exact hfs, by rw [hred]; simp [hevs]⟩

theorem recoveryCandidates_sorted (fs : FS) (path : String) :
    List.Pairwise (fun a b => mtimeOf fs b ≤ mtimeOf fs a) (recoveryCandidates fs path) := by
  have htrans : ∀ a b c : String, decide (mtimeOf fs b ≤ mtimeOf fs a) = true →
      decide (mtimeOf fs c ≤ mtimeOf fs b) = true →
      decide (mtimeOf fs c ≤ mtimeOf fs a) = true := by
    intro a b c h1 h2
    simp at h1 h2 ⊢
    omega
  have htotal : ∀ a b : String, (decide (mtimeOf fs b ≤ mtimeOf fs a) ||
      decide (mtimeOf fs a ≤ mtimeOf fs b)) = true := by
    intro a b
    simp
    omega
  have h := List.sorted_mergeSort htrans htotal (backupCandidates fs path)
  have h2 : List.Pairwise (fun a b => decide (mtimeOf fs b ≤ mtimeOf fs a) = true)
      (recoveryCandidates fs path) := h
  exact h2.imp (fun hab => by simpa using hab)

theorem recoveryCandidates_mem (fs : FS) (path p : String) :
    p ∈ recoveryCandidates fs path ↔
      FS.existsF fs p = true ∧ backupMatch path p = true := by
  unfold recoveryCandidates sortByMtimeDesc
  rw [List.Perm.mem_iff (List.mergeSort_perm _ _)]
  unfold backupCandidates
  rw [List.mem_map]
  constructor
  · rintro ⟨e, he, rfl⟩
    rw [List.mem_filter] at he
    exact ⟨(existsF_iff fs e.1).mpr ⟨e, he.1, rfl⟩, he.2⟩
  · rintro ⟨hex, hbm⟩
    obtain ⟨e, he, hep⟩ := (existsF_iff fs p).mp hex
    refine ⟨e, ?_, hep⟩
    rw [List.mem_filter]
    exact ⟨he, by rw [hep]; exact hbm⟩

/-- C2: `_attempt_recovery` tries exactly the files matching
`{path}.backup.*` in the target's directory, in decreasing
modification-time order; the first candidate that passes validation and
whose rename succeeds is moved onto the target (the backup path ceases
to exist and the target now holds the backup's data); candidates that
pass validation but whose rename fails, like invalid candidates, are
skipped; the call returns failure iff no candidate yields a successful
reinstatement, in which case the filesystem is untouched. -/
theorem recovery_selector_spec (env : Env) (fs : FS) (path ctype : String) :
    List.Pairwise (fun a b => mtimeOf fs b ≤ mtimeOf fs a) (recoveryCandidates fs path) ∧
    (∀ p, p ∈ recoveryCandidates fs path ↔
      FS.existsF fs p = true ∧ backupMatch path p = true) ∧
    ((attemptRecovery env fs path ctype).ok = true ↔
      ∃ b ∈ recoveryCandidates fs path, recoveryGood env fs ctype b = true) ∧
    ((attemptRecovery env fs path ctype).ok = true →
      ∃ pre b post, recoveryCandidates fs path = pre ++ b :: post ∧
        (∀ a ∈ pre, recoveryGood env fs ctype a = false) ∧
        recoveryGood env fs ctype b = true ∧
        (attemptRecovery env fs path ctype).fs = FS.renameF fs b path ∧
        FS.existsF (attemptRecovery env fs path ctype).fs b = false ∧
        FS.read (attemptRecovery env fs path ctype).fs path = FS.read fs b ∧
        (attemptRecovery env fs path ctype).evs =
          Ev.recoveryEv ctype :: (pre.map Ev.tryBackupEv ++
            [Ev.tryBackupEv b, Ev.renameEv b path])) ∧
    ((attemptRecovery env fs path ctype).ok = false →
      (attemptRecovery env fs path ctype).fs = fs ∧
      (attemptRecovery env fs path ctype).evs =
        Ev.recoveryEv ctype :: (recoveryCandidates fs path).map Ev.tryBackupEv) := by
  have hspec := recoveryLoop_spec env fs path ctype (recoveryCandidates fs path)
  have hok : (attemptRecovery env fs path ctype).ok =
      (recoveryLoop env fs path ctype (recoveryCandidates fs path)).ok := rfl
  have hfs : (attemptRecovery env fs path ctype).fs =
      (recoveryLoop env fs path ctype (recoveryCandidates fs path)).fs := rfl
  have hevs : (attemptRecovery env fs path ctype).evs =
      Ev.recoveryEv ctype ::
        (recoveryLoop env fs path ctype (recoveryCandidates fs path)).evs := rfl
  refine ⟨recoveryCandidates_sorted fs path, recoveryCandidates_mem fs path, ?_, ?_, ?_⟩
  · rw [hok]
    exact hspec.1
  · intro h
    rw [hok] at h
    obtain ⟨pre, b, post, hl, hpre, hgb, hfs2, hevs2⟩ := hspec.2.1 h
    have hvalid : isKubeconfigValid env fs b ctype = true := by
      have := hgb
      unfold recoveryGood at this
      rw [Bool.and_eq_true] at this
      exact this.1
    have hread : ∃ fi, FS.read fs b = some fi := by
      unfold isKubeconfigValid at hvalid
      cases hb : FS.read fs b with
      | none => rw [hb] at hvalid; simp at hvalid
      | some fi => exact ⟨fi, rfl⟩
    obtain ⟨fi, hfi⟩ := hread
    have hbp : b ≠ path := by
      have hmem : b ∈ recoveryCandidates fs path := by
        rw [hl]
        exact List.mem_append.mpr (Or.inr (List.mem_cons_self b post))
      exact backupMatch_ne path b ((recoveryCandidates_mem fs path b).mp hmem).2
    refine ⟨pre, b, post, hl, hpre, hgb, by rw [hfs]; exact hfs2, ?_, ?_, ?_⟩
    · rw [hfs, hfs2]
      unfold FS.existsF
      rw [read_renameF fs b path fi hfi b]
      rw [if_neg hbp, if_pos rfl]
      rfl
    · rw [hfs, hfs2]
      rw [read_renameF fs b path fi hfi path]
      rw [if_pos rfl, hfi]
    · rw [hevs, hevs2]
  · intro h
    rw [hok] at h
    obtain ⟨hfs2, hevs2⟩ := hspec.2.2 h
    exact ⟨by rw [hfs]; exact hfs2, by rw [hevs, hevs2]⟩

/-- A filesystem with a target and two backups: the newer backup has
invalid content, the older one is valid. -/
def recDemoFS : FS :=
  [("/r/gke", ⟨"OLD", 0o600, 1⟩),
   ("/r/gke.backup.3", ⟨"GOOD", 0o600, 3⟩),
   ("/r/gke.backup.5", ⟨"BAD", 0o600, 5⟩)]

theorem recovery_selector_spec_witness :
    (attemptRecovery demoEnvOk recDemoFS "/r/gke" "gke").ok = true ↔
      ∃ b ∈ recoveryCandidates recDemoFS "/r/gke",
        recoveryGood demoEnvOk recDemoFS "gke" b = true :=
  (recovery_selector_spec demoEnvOk recDemoFS "/r/gke" "gke").2.2.1

/-! ### Bounded retries (C1) -/

theorem recoveryLoop_evs_shape (env : Env) (fs : FS) (path ctype : String) :
    ∀ l, ∀ e ∈ (recoveryLoop env fs path ctype l).evs,
      e.isAttempt = false ∧ e.isSleep = false := by
  intro l
  induction l with
  | nil => intro e he; simp [recoveryLoop] at he
  | cons b rest ih =>
    intro e he
    by_cases hv : isKubeconfigValid env fs b ctype = true
    · by_cases hr : env.renameOk b = true
      · simp [recoveryLoop, hv, hr] at he
        rcases he with h | h <;> subst h <;> exact ⟨rfl, rfl⟩
      · simp [recoveryLoop, hv, hr] at he
        rcases he with h | h
        · subst h; exact ⟨rfl, rfl⟩
        · exact ih e h
    · simp [recoveryLoop, hv] at he
      rcases he with h | h
      · subst h; exact ⟨rfl, rfl⟩
      · exact ih e h

theorem attemptRecovery_evs_shape (env : Env) (fs : FS) (path ctype : String) :
    ∀ e ∈ (attemptRecovery env fs path ctype).evs,
      e.isAttempt = false ∧ e.isSleep = false := by
  intro e he
  have hevs : (attemptRecovery env fs path ctype).evs = Ev.recoveryEv ctype ::
      (recoveryLoop env fs path ctype (recoveryCandidates fs path)).evs := rfl
  rw [hevs] at he
  rcases List.mem_cons.mp he with h | h
  · subst h; exact ⟨rfl, rfl⟩
  · exact recoveryLoop_evs_shape env fs path ctype _ e h

theorem createBackup_evs (env : Env) (fs : FS) (t : Nat) (path : String) :
    ∀ e ∈ (createBackup env fs t path).evs, ∃ s d, e = Ev.backupEv s d := by
  unfold createBackup
  cases h : FS.read fs path with
  | none => intro e he; simp at he
  | some fi =>
    by_cases hw : env.writeOk (path ++ ".backup." ++ toString t) = true <;>
      intro e he <;> simp [hw] at he
    exact ⟨_, _, he⟩

theorem gkeLoop_always_fails (env : Env) (path : String) (t : Nat) (fs1 : FS)
    (hfail : ∀ n fsx, (env.gkeAcquire n fsx).1 = false) :
    ∃ fsr, gkeLoop env path t fs1 attemptList =
      ⟨(attemptRecovery env fsr path "gke").ok,
       (attemptRecovery env fsr path "gke").fs,
       t + retryDelay + retryDelay,
       [Ev.attemptEv "gke" 1, Ev.acquireEv "gke" 1, Ev.sleepEv retryDelay,
        Ev.attemptEv "gke" 2, Ev.acquireEv "gke" 2, Ev.sleepEv retryDelay,
        Ev.attemptEv "gke" 3, Ev.acquireEv "gke" 3] ++
         (attemptRecovery env fsr path "gke").evs⟩ := by
  refine ⟨(env.gkeAcquire 3 (env.gkeAcquire 2 (env.gkeAcquire 1 fs1).2).2).2, ?_⟩
  have h1 := hfail 1 fs1
  have h2 := hfail 2 (env.gkeAcquire 1 fs1).2
  have h3 := hfail 3 (env.gkeAcquire 2 (env.gkeAcquire 1 fs1).2).2
  show gkeLoop env path t fs1 [1, 2, 3] = _
  simp [gkeLoop, h1, h2, h3]

/-- The ways an acquisition attempt of `create_hosted_kubeconfig` can
fail before the write step (source lines 163-196): the `kubectl` call
fails, its output is blank after stripping, base64/utf-8 decoding raises,
or the decoded document is not a mapping with a `clusters` key. -/
def hostedAcquireFails (env : Env) (n : Nat) : Prop :=
  (env.hostedSecret n).1 = false ∨ pyStrip (env.hostedSecret n).2 = "" ∨
    env.b64decode (env.hostedSecret n).2 = none ∨
    (∃ d, env.b64decode (env.hostedSecret n).2 = some d ∧ hostedDataOk env d = false)

theorem hostedLoop_fail_step (env : Env) (dr : Bool) (path : String) (t : Nat) (fs : FS)
    (n : Nat) (rest : List Nat) (hne : rest ≠ [])
    (hfail : hostedAcquireFails env n) :
    hostedLoop env dr path t fs (n :: rest) =
      ⟨(hostedLoop env dr path (t + retryDelay) fs rest).ok,
       (hostedLoop env dr path (t + retryDelay) fs rest).fs,
       (hostedLoop env dr path (t + retryDelay) fs rest).time,
       Ev.attemptEv "hosted" n :: Ev.acquireEv "hosted" n :: Ev.sleepEv retryDelay ::
         (hostedLoop env dr path (t + retryDelay) fs rest).evs⟩ := by
  have hemp : rest.isEmpty = false := by
    cases rest with
    | nil => exact absurd rfl hne
    | cons a as => rfl
  by_cases hc1 : (env.hostedSecret n).1 = false ∨ pyStrip (env.hostedSecret n).2 = ""
  · simp [hostedLoop, hc1, hemp]
  · rcases hfail with h | h | h | h
    · exact absurd (Or.inl h) hc1
    · exact absurd (Or.inr h) hc1
    · simp [hostedLoop, hc1, hemp, h]
    · obtain ⟨d, hd, hdo⟩ := h
      simp [hostedLoop, hc1, hemp, hd, hdo]

theorem hostedLoop_fail_last (env : Env) (dr : Bool) (path : String) (t : Nat) (fs : FS)
    (n : Nat) (hfail : hostedAcquireFails env n) :
    hostedLoop env dr path t fs [n] =
      ⟨(attemptRecovery env fs path "hosted").ok,
       (attemptRecovery env fs path "hosted").fs,
       t,
       Ev.attemptEv "hosted" n :: Ev.acquireEv "hosted" n ::
         (attemptRecovery env fs path "hosted").evs⟩ := by
  by_cases hc1 : (env.hostedSecret n).1 = false ∨ pyStrip (env.hostedSecret n).2 = ""
  · simp [hostedLoop, hc1]
  · rcases hfail with h | h | h | h
    · exact absurd (Or.inl h) hc1
    · exact absurd (Or.inr h) hc1
    · simp [hostedLoop, hc1, h]
    · obtain ⟨d, hd, hdo⟩ := h
      simp [hostedLoop, hc1, hd, hdo]

theorem hostedLoop_always_fails (env : Env) (dr : Bool) (path : String) (t : Nat) (fs1 : FS)
    (hfail : ∀ n, hostedAcquireFails env n) :
    hostedLoop env dr path t fs1 attemptList =
      ⟨(attemptRecovery env fs1 path "hosted").ok,
       (attemptRecovery env fs1 path "hosted").fs,
       t + retryDelay + retryDelay,
       [Ev.attemptEv "hosted" 1, Ev.acquireEv "hosted" 1, Ev.sleepEv retryDelay,
        Ev.attemptEv "hosted" 2, Ev.acquireEv "hosted" 2, Ev.sleepEv retryDelay,
        Ev.attemptEv "hosted" 3, Ev.acquireEv "hosted" 3] ++
         (attemptRecovery env fs1 path "hosted").evs⟩ := by
  have hs : attemptList = [1, 2, 3] := rfl
  rw [hs]
  rw [hostedLoop_fail_step env dr path t fs1 1 [2, 3] (by simp) (hfail 1)]
  rw [hostedLoop_fail_step env dr path (t + retryDelay) fs1 2 [3] (by simp) (hfail 2)]
  rw [hostedLoop_fail_last env dr path (t + retryDelay + retryDelay) fs1 3 (hfail 3)]
  simp

theorem createGke_unfold (env : Env) (cfg : Config) (force : Bool) (fs : FS) (t : Nat)
    (hfp : force = true ∨ isKubeconfigValid env fs cfg.kubeconfig_gke_path "gke" = false)
    (hdir : env.dirOk (dirname cfg.kubeconfig_gke_path) = true) :
    ∃ fs1 bkevs,
      createGkeKubeconfig env cfg force fs t =
        ⟨(gkeLoop env cfg.kubeconfig_gke_path t fs1 attemptList).ok,
         (gkeLoop env cfg.kubeconfig_gke_path t fs1 attemptList).fs,
         (gkeLoop env cfg.kubeconfig_gke_path t fs1 attemptList).time,
         Ev.mkdirEv (dirname cfg.kubeconfig_gke_path) 0o700 :: bkevs ++
           (gkeLoop env cfg.kubeconfig_gke_path t fs1 attemptList).evs⟩ ∧
      (∀ e ∈ bkevs, ∃ s d, e = Ev.backupEv s d) := by
  have hc : ¬ (force = false ∧
      isKubeconfigValid env fs cfg.kubeconfig_gke_path "gke" = true) := by
    rcases hfp with h | h <;> simp [h]
  by_cases hex : FS.existsF fs cfg.kubeconfig_gke_path = true
  · refine ⟨(createBackup env fs t cfg.kubeconfig_gke_path).fs,
      (createBackup env fs t cfg.kubeconfig_gke_path).evs, ?_,
      createBackup_evs env fs t _⟩
    simp [createGkeKubeconfig, hc, ensureDirectoryExists, hdir, hex]
  · refine ⟨fs, [], ?_, by simp⟩
    simp [createGkeKubeconfig, hc, ensureDirectoryExists, hdir, hex]

theorem createHosted_unfold (env : Env) (cfg : Config) (force : Bool) (fs : FS) (t : Nat)
    (hfp : force = true ∨ isKubeconfigValid env fs cfg.kubeconfig_hosted_path "hosted" = false)
    (hdir : env.dirOk (dirname cfg.kubeconfig_hosted_path) = true) :
    ∃ fs1 bkevs,
      createHostedKubeconfig env cfg force fs t =
        ⟨(hostedLoop env cfg.dry_run cfg.kubeconfig_hosted_path t fs1 attemptList).ok,
         (hostedLoop env cfg.dry_run cfg.kubeconfig_hosted_path t fs1 attemptList).fs,
         (hostedLoop env cfg.dry_run cfg.kubeconfig_hosted_path t fs1 attemptList).time,
         Ev.mkdirEv (dirname cfg.kubeconfig_hosted_path) 0o700 :: bkevs ++
           (hostedLoop env cfg.dry_run cfg.kubeconfig_hosted_path t fs1 attemptList).evs⟩ ∧
      (∀ e ∈ bkevs, ∃ s d, e = Ev.backupEv s d) := by
  have hc : ¬ (force = false ∧
      isKubeconfigValid env fs cfg.kubeconfig_hosted_path "hosted" = true) := by
    rcases hfp with h | h <;> simp [h]
  by_cases hex : FS.existsF fs cfg.kubeconfig_hosted_path = true
  · refine ⟨(createBackup env fs t cfg.kubeconfig_hosted_path).fs,
      (createBackup env fs t cfg.kubeconfig_hosted_path).evs, ?_,
      createBackup_evs env fs t _⟩
    simp [createHostedKubeconfig, hc, ensureDirectoryExists, hdir, hex]
  · refine ⟨fs, [], ?_, by simp⟩
    simp [createHostedKubeconfig, hc, ensureDirectoryExists, hdir, hex]

/-- C1: when the role-specific acquisition procedure fails on every
attempt (and the fast path and directory check are passed), each
orchestrator performs exactly 3 attempts with a 5-second sleep between
consecutive attempts, and enters the recovery selector exactly once,
after the third failed attempt: the event trace is some backup/mkdir
prefix (no attempt, sleep or recovery events), then attempt 1, sleep 5,
attempt 2, sleep 5, attempt 3, recovery, then only recovery-internal
events (no attempts or sleeps); the clock advances by exactly two retry
delays. -/
theorem retry_bound_then_recovery (env : Env) (cfg : Config) (force : Bool) (fs : FS) (t : Nat)
    (hgfail : ∀ n fsx, (env.gkeAcquire n fsx).1 = false)
    (hhfail : ∀ n, hostedAcquireFails env n)
    (hgdir : env.dirOk (dirname cfg.kubeconfig_gke_path) = true)
    (hhdir : env.dirOk (dirname cfg.kubeconfig_hosted_path) = true)
    (hgfp : force = true ∨ isKubeconfigValid env fs cfg.kubeconfig_gke_path "gke" = false)
    (hhfp : force = true ∨ isKubeconfigValid env fs cfg.kubeconfig_hosted_path "hosted" = false) :
    (∃ pre rec,
      (createGkeKubeconfig env cfg force fs t).evs =
        pre ++ [Ev.attemptEv "gke" 1, Ev.acquireEv "gke" 1, Ev.sleepEv retryDelay,
          Ev.attemptEv "gke" 2, Ev.acquireEv "gke" 2, Ev.sleepEv retryDelay,
          Ev.attemptEv "gke" 3, Ev.acquireEv "gke" 3, Ev.recoveryEv "gke"] ++ rec ∧
      (∀ e ∈ pre, e.isAttempt = false ∧ e.isSleep = false ∧ e.isRecovery = false) ∧
      (∀ e ∈ rec, e.isAttempt = false ∧ e.isSleep = false) ∧
      (createGkeKubeconfig env cfg force fs t).time = t + retryDelay + retryDelay) ∧
    (∃ pre rec,
      (createHostedKubeconfig env cfg force fs t).evs =
        pre ++ [Ev.attemptEv "hosted" 1, Ev.acquireEv "hosted" 1, Ev.sleepEv retryDelay,
          Ev.attemptEv "hosted" 2, Ev.acquireEv "hosted" 2, Ev.sleepEv retryDelay,
          Ev.attemptEv "hosted" 3, Ev.acquireEv "hosted" 3, Ev.recoveryEv "hosted"] ++ rec ∧
      (∀ e ∈ pre, e.isAttempt = false ∧ e.isSleep = false ∧ e.isRecovery = false) ∧
      (∀ e ∈ rec, e.isAttempt = false ∧ e.isSleep = false) ∧
      (createHostedKubeconfig env cfg force fs t).time = t + retryDelay + retryDelay) := by
  constructor
  · obtain ⟨fs1, bkevs, hrun, hbk⟩ := createGke_unfold env cfg force fs t hgfp hgdir
    obtain ⟨fsr, hloop⟩ := gkeLoop_always_fails env cfg.kubeconfig_gke_path t fs1 hgfail
    refine ⟨Ev.mkdirEv (dirname cfg.kubeconfig_gke_path) 0o700 :: bkevs,
      (recoveryLoop env fsr cfg.kubeconfig_gke_path "gke"
        (recoveryCandidates fsr cfg.kubeconfig_gke_path)).evs, ?_, ?_, ?_, ?_⟩
    · rw [hrun, hloop]
      simp [attemptRecovery]
    · intro e he
      rcases List.mem_cons.mp he with h | h
      · subst h; exact ⟨rfl, rfl, rfl⟩
      · obtain ⟨s, d, hsd⟩ := hbk e h
        subst hsd; exact ⟨rfl, rfl, rfl⟩
    · intro e he
      exact recoveryLoop_evs_shape env fsr cfg.kubeconfig_gke_path "gke" _ e he
    · rw [hrun, hloop]
  · obtain ⟨fs1, bkevs, hrun, hbk⟩ := createHosted_unfold env cfg force fs t hhfp hhdir
    have hloop := hostedLoop_always_fails env cfg.dry_run cfg.kubeconfig_hosted_path t fs1 hhfail
    refine ⟨Ev.mkdirEv (dirname cfg.kubeconfig_hosted_path) 0o700 :: bkevs,
      (recoveryLoop env fs1 cfg.kubeconfig_hosted_path "hosted"
        (recoveryCandidates fs1 cfg.kubeconfig_hosted_path)).evs, ?_, ?_, ?_, ?_⟩
    · rw [hrun, hloop]
      simp [attemptRecovery]
    · intro e he
      rcases List.mem_cons.mp he with h | h
      · subst h; exact ⟨rfl, rfl, rfl⟩
      · obtain ⟨s, d, hsd⟩ := hbk e h
        subst hsd; exact ⟨rfl, rfl, rfl⟩
    · intro e he
      exact recoveryLoop_evs_shape env fs1 cfg.kubeconfig_hosted_path "hosted" _ e he
    · rw [hrun, hloop]

/-- An environment where both acquisition procedures always fail. -/
def failEnv : Env :=
  { gkeAcquire := fun _ fsx => (false, fsx)
    hostedSecret := fun _ => (false, "")
    b64decode := fun _ => none
    parseYaml := fun _ => none
    conn := fun _ => false
    dirOk := fun _ => true
    statOk := fun _ => true
    writeOk := fun _ => true
    chmodOk := fun _ => true
    renameOk := fun _ => true }

theorem retry_bound_then_recovery_witness :
    (∀ n fsx, (failEnv.gkeAcquire n fsx).1 = false) ∧
    (∀ n, hostedAcquireFails failEnv n) ∧
    ((∃ pre rec,
      (createGkeKubeconfig failEnv demoCfg true [] 0).evs =
        pre ++ [Ev.attemptEv "gke" 1, Ev.acquireEv "gke" 1, Ev.sleepEv retryDelay,
          Ev.attemptEv "gke" 2, Ev.acquireEv "gke" 2, Ev.sleepEv retryDelay,
          Ev.attemptEv "gke" 3, Ev.acquireEv "gke" 3, Ev.recoveryEv "gke"] ++ rec ∧
      (∀ e ∈ pre, e.isAttempt = false ∧ e.isSleep = false ∧ e.isRecovery = false) ∧
      (∀ e ∈ rec, e.isAttempt = false ∧ e.isSleep = false) ∧
      (createGkeKubeconfig failEnv demoCfg true [] 0).time = 0 + retryDelay + retryDelay) ∧
    (∃ pre rec,
      (createHostedKubeconfig failEnv demoCfg true [] 0).evs =
        pre ++ [Ev.attemptEv "hosted" 1, Ev.acquireEv "hosted" 1, Ev.sleepEv retryDelay,
          Ev.attemptEv "hosted" 2, Ev.acquireEv "hosted" 2, Ev.sleepEv retryDelay,
          Ev.attemptEv "hosted" 3, Ev.acquireEv "hosted" 3, Ev.recoveryEv "hosted"] ++ rec ∧
      (∀ e ∈ pre, e.isAttempt = false ∧ e.isSleep = false ∧ e.isRecovery = false) ∧
      (∀ e ∈ rec, e.isAttempt = false ∧ e.isSleep = false) ∧
      (createHostedKubeconfig failEnv demoCfg true [] 0).time = 0 + retryDelay + retryDelay)) :=
  ⟨fun _ _ => rfl, fun _ => Or.inl rfl,
    retry_bound_then_recovery failEnv demoCfg true [] 0
      (fun _ _ => rfl) (fun _ => Or.inl rfl) rfl rfl (Or.inl rfl) (Or.inl rfl)⟩

/-! ### Backups happen only before the retry loop (C4) -/

theorem recoveryLoop_no_backup (env : Env) (fs : FS) (path ctype : String) :
    ∀ l, ∀ e ∈ (recoveryLoop env fs path ctype l).evs, e.isBackup = false := by
  intro l
  induction l with
  | nil => intro e he; simp [recoveryLoop] at he
  | cons b rest ih =>
    intro e he
    by_cases hv : isKubeconfigValid env fs b ctype = true
    · by_cases hr : env.renameOk b = true
      · simp [recoveryLoop, hv, hr] at he
        rcases he with h | h <;> subst h <;> rfl
      · simp [recoveryLoop, hv, hr] at he
        rcases he with h | h
        · subst h; rfl
        · exact ih e h
    · simp [recoveryLoop, hv] at he
      rcases he with h | h
      · subst h; rfl
      · exact ih e h

theorem attemptRecovery_no_backup (env : Env) (fs : FS) (path ctype : String) :
    ∀ e ∈ (attemptRecovery env fs path ctype).evs, e.isBackup = false := by
  intro e he
  have hevs : (attemptRecovery env fs path ctype).evs = Ev.recoveryEv ctype ::
      (recoveryLoop env fs path ctype (recoveryCandidates fs path)).evs := rfl
  rw [hevs] at he
  rcases List.mem_cons.mp he with h | h
  · subst h; rfl
  · exact recoveryLoop_no_backup env fs path ctype _ e h

theorem gkeLoop_no_backup (env : Env) (path : String) :
    ∀ l t fs, ∀ e ∈ (gkeLoop env path t fs l).evs, e.isBackup = false := by
  intro l
  induction l with
  | nil =>
    intro t fs e he
    exact attemptRecovery_no_backup env fs path "gke" e he
  | cons n rest ih =>
    intro t fs e he
    by_cases hacq : (env.gkeAcquire n fs).1 = false
    · by_cases hemp : rest.isEmpty
      · simp [gkeLoop, hacq, hemp] at he
        rcases he with h | h | h
        · subst h; rfl
        · subst h; rfl
        · exact attemptRecovery_no_backup env _ path "gke" e h
      · simp [gkeLoop, hacq, hemp] at he
        rcases he with h | h | h | h
        · subst h; rfl
        · subst h; rfl
        · subst h; rfl
        · exact ih _ _ e h
    · by_cases hval : validateKubeconfigFile env (env.gkeAcquire n fs).2 path "gke" = true
      · by_cases hch : env.chmodOk path = true <;>
          simp [gkeLoop, hacq, hval, setSecurePermissions, hch] at he <;>
          rcases he with h | h <;> first
            | (subst h; rfl)
            | (rcases h with h2 | h2 <;> subst h2 <;> rfl)
      · by_cases hemp : rest.isEmpty
        · simp [gkeLoop, hacq, hval, hemp] at he
          rcases he with h | h | h
          · subst h; rfl
          · subst h; rfl
          · exact attemptRecovery_no_backup env _ path "gke" e h
        · simp [gkeLoop, hacq, hval, hemp] at he
          rcases he with h | h | h | h
          · subst h; rfl
          · subst h; rfl
          · subst h; rfl
          · exact ih _ _ e h

theorem hostedWriteStep_no_backup (env : Env) (fs : FS) (t : Nat) (path content : String) :
    ∀ e ∈ (hostedWriteStep env fs t path content).2.2, e.isBackup = false := by
  intro e he
  unfold hostedWriteStep at he
  by_cases hw : env.writeOk (path ++ ".tmp") = true
  · by_cases hch : env.chmodOk (path ++ ".tmp") = true
    · by_cases hr : env.renameOk (path ++ ".tmp") = true
      · simp [hw, hch, hr] at he
        rcases he with h | h | h <;> subst h <;> rfl
      · simp [hw, hch, hr] at he
        rcases he with h | h <;> subst h <;> rfl
    · simp [hw, hch] at he
      subst he; rfl
  · simp [hw] at he

theorem hostedLoop_no_backup (env : Env) (dr : Bool) (path : String) :
    ∀ l t fs, ∀ e ∈ (hostedLoop env dr path t fs l).evs, e.isBackup = false := by
  intro l
  induction l with
  | nil =>
    intro t fs e he
    exact attemptRecovery_no_backup env fs path "hosted" e he
  | cons n rest ih =>
    intro t fs e he
    by_cases hc1 : (env.hostedSecret n).1 = false ∨ pyStrip (env.hostedSecret n).2 = ""
    · by_cases hemp : rest.isEmpty
      · simp [hostedLoop, hc1, hemp] at he
        rcases he with h | h | h
        · subst h; rfl
        · subst h; rfl
        · exact attemptRecovery_no_backup env _ path "hosted" e h
      · simp [hostedLoop, hc1, hemp] at he
        rcases he with h | h | h | h
        · subst h; rfl
        · subst h; rfl
        · subst h; rfl
        · exact ih _ _ e h
    · cases hb : env.b64decode (env.hostedSecret n).2 with
      | none =>
        by_cases hemp : rest.isEmpty
        · simp [hostedLoop, hc1, hemp, hb] at he
          rcases he with h | h | h
          · subst h; rfl
          · subst h; rfl
          · exact attemptRecovery_no_backup env _ path "hosted" e h
        · simp [hostedLoop, hc1, hemp, hb] at he
          rcases he with h | h | h | h
          · subst h; rfl
          · subst h; rfl
          · subst h; rfl
          · exact ih _ _ e h
      | some data =>
        by_cases hdo : hostedDataOk env data = true
        · by_cases hdr : dr = true
          · subst hdr
            by_cases hval : validateKubeconfigFile env fs path "hosted" = true
            · simp [hostedLoop, hc1, hb, hdo, hval] at he
              rcases he with h | h <;> subst h <;> rfl
            · by_cases hemp : rest.isEmpty
              · simp [hostedLoop, hc1, hemp, hb, hdo, hval] at he
                rcases he with h | h | h
                · subst h; rfl
                · subst h; rfl
                · exact attemptRecovery_no_backup env _ path "hosted" e h
              · simp [hostedLoop, hc1, hemp, hb, hdo, hval] at he
                rcases he with h | h | h | h
                · subst h; rfl
                · subst h; rfl
                · subst h; rfl
                · exact ih _ _ e h
          · have hdr2 : dr = false := by
              cases dr
              · rfl
              · exact absurd rfl hdr
            subst hdr2
            by_cases hwok : (hostedWriteStep env fs t path data).1 = true
            · by_cases hval : validateKubeconfigFile env
                  (hostedWriteStep env fs t path data).2.1 path "hosted" = true
              · simp [hostedLoop, hc1, hb, hdo, hwok, hval] at he
                rcases he with h | h | h
                · subst h; rfl
                · subst h; rfl
                · exact hostedWriteStep_no_backup env fs t path data e h
              · by_cases hemp : rest.isEmpty
                · simp [hostedLoop, hc1, hemp, hb, hdo, hwok, hval] at he
                  rcases he with h | h | h | h
                  · subst h; rfl
                  · subst h; rfl
                  · exact hostedWriteStep_no_backup env fs t path data e h
                  · exact attemptRecovery_no_backup env _ path "hosted" e h
                · simp [hostedLoop, hc1, hemp, hb, hdo, hwok, hval] at he
                  rcases he with h | h | h | h | h
                  · subst h; rfl
                  · subst h; rfl
                  · exact hostedWriteStep_no_backup env fs t path data e h
                  · subst h; rfl
                  · exact ih _ _ e h
            · by_cases hemp : rest.isEmpty
              · simp [hostedLoop, hc1, hemp, hb, hdo, hwok] at he
                rcases he with h | h | h | h
                · subst h; rfl
                · subst h; rfl
                · exact hostedWriteStep_no_backup env fs t path data e h
                · exact attemptRecovery_no_backup env _ path "hosted" e h
              · simp [hostedLoop, hc1, hemp, hb, hdo, hwok] at he
                rcases he with h | h | h | h
                · subst h; rfl
                · subst h; rfl
                · exact hostedWriteStep_no_backup env fs t path data e h
                · exact ih _ _ e h
        · by_cases hemp : rest.isEmpty
          · simp [hostedLoop, hc1, hemp, hb, hdo] at he
            rcases he with h | h | h
            · subst h; rfl
            · subst h; rfl
            · exact attemptRecovery_no_backup env _ path "hosted" e h
          · simp [hostedLoop, hc1, hemp, hb, hdo] at he
            rcases he with h | h | h | h
            · subst h; rfl
            · subst h; rfl
            · subst h; rfl
            · exact ih _ _ e h

/-- Environment for the C4 counterexample: the GKE acquisition fails on
attempt 1 (leaving the filesystem unchanged) and succeeds on attempt 2
by writing the target file, as `gcloud` does. -/
def c4env : Env :=
  { demoEnvOk with
    gkeAcquire := fun n fsx =>
      if n = 2 then (true, FS.write fsx "/r/gke" ⟨"GOOD", 0o644, 50⟩) else (false, fsx) }

/-- Initial filesystem for the C4 counterexample: the target pre-exists. -/
def c4fs : FS := [("/r/gke", ⟨"OLDC", 0o600, 1⟩)]

/-- The filesystem at the start of attempts 1 and 2 of the C4 run: after
the single pre-loop backup; attempt 1 leaves it unchanged. -/
def c4fsMid : FS := FS.write c4fs "/r/gke.backup.100" ⟨"OLDC", 0o600, 100⟩

/-- C4 counterexample: a run in which the target file pre-exists at the
start of attempt 2 and is overwritten during attempt 2, yet no backup is
created in that attempt — the only backup event of the whole run happens
before attempt 1, so "for every acquisition attempt in which the target
pre-exists, exactly one new backup is created in that attempt" is false.
The first conjunct shows the target exists in the state entering the
retry loop (hence at the start of attempt 2, since attempt 1 leaves the
state unchanged); the second computes the loop run from that state: its
trace contains attempt 2 and no backup event at all, and attempt 2
replaces the target's content (third conjunct); the fourth computes the
full run: its single backup event precedes attempt 1. -/
theorem backup_per_attempt_cex :
    FS.existsF c4fsMid "/r/gke" = true ∧
    gkeLoop c4env "/r/gke" 100 c4fsMid attemptList =
      ⟨true, FS.chmodF (FS.write c4fsMid "/r/gke" ⟨"GOOD", 0o644, 50⟩) "/r/gke" 0o600, 105,
       [Ev.attemptEv "gke" 1, Ev.acquireEv "gke" 1, Ev.sleepEv retryDelay,
        Ev.attemptEv "gke" 2, Ev.acquireEv "gke" 2, Ev.chmodEv "/r/gke" 0o600]⟩ ∧
    FS.read (FS.chmodF (FS.write c4fsMid "/r/gke" ⟨"GOOD", 0o644, 50⟩) "/r/gke" 0o600)
        "/r/gke" ≠ FS.read c4fsMid "/r/gke" ∧
    createGkeKubeconfig c4env demoCfg true c4fs 100 =
      ⟨true, FS.chmodF (FS.write c4fsMid "/r/gke" ⟨"GOOD", 0o644, 50⟩) "/r/gke" 0o600, 105,
       [Ev.mkdirEv "/r" 0o700, Ev.backupEv "/r/gke" "/r/gke.backup.100",
        Ev.attemptEv "gke" 1, Ev.acquireEv "gke" 1, Ev.sleepEv retryDelay,
        Ev.attemptEv "gke" 2, Ev.acquireEv "gke" 2, Ev.chmodEv "/r/gke" 0o600]⟩ :=
  ⟨by decide, by decide, by decide, by decide⟩

/-- C4 amended: backups are per acquisition request, not per attempt:
when the fast path is bypassed and the directory check passes, the whole
run creates exactly one backup — before the first attempt, and only if
the target pre-existed then and the copy succeeded — and the retry loop
itself (attempts 1 to 3, including recovery) never emits a backup event,
even when the target pre-exists at the start of a later attempt. -/
theorem backup_once_before_loop (env : Env) (cfg : Config) (force : Bool) (fs : FS) (t : Nat)
    (hgfp : force = true ∨ isKubeconfigValid env fs cfg.kubeconfig_gke_path "gke" = false)
    (hgdir : env.dirOk (dirname cfg.kubeconfig_gke_path) = true)
    (hhfp : force = true ∨ isKubeconfigValid env fs cfg.kubeconfig_hosted_path "hosted" = false)
    (hhdir : env.dirOk (dirname cfg.kubeconfig_hosted_path) = true) :
    ((createBackup env fs t cfg.kubeconfig_gke_path).evs =
      if FS.existsF fs cfg.kubeconfig_gke_path = true ∧
          env.writeOk (cfg.kubeconfig_gke_path ++ ".backup." ++ toString t) = true
      then [Ev.backupEv cfg.kubeconfig_gke_path
              (cfg.kubeconfig_gke_path ++ ".backup." ++ toString t)]
      else []) ∧
    (∃ levs,
      (createGkeKubeconfig env cfg force fs t).evs =
        Ev.mkdirEv (dirname cfg.kubeconfig_gke_path) 0o700 ::
          (if FS.existsF fs cfg.kubeconfig_gke_path = true
           then (createBackup env fs t cfg.kubeconfig_gke_path).evs else []) ++ levs ∧
      (∀ e ∈ levs, e.isBackup = false)) ∧
    (∃ levs,
      (createHostedKubeconfig env cfg force fs t).evs =
        Ev.mkdirEv (dirname cfg.kubeconfig_hosted_path) 0o700 ::
          (if FS.existsF fs cfg.kubeconfig_hosted_path = true
           then (createBackup env fs t cfg.kubeconfig_hosted_path).evs else []) ++ levs ∧
      (∀ e ∈ levs, e.isBackup = false)) := by
  refine ⟨?_, ?_, ?_⟩
  · unfold createBackup
    cases h : FS.read fs cfg.kubeconfig_gke_path with
    | none =>
      have hex : FS.existsF fs cfg.kubeconfig_gke_path = false := by
        unfold FS.existsF
        rw [h]
        rfl
      simp [hex]
    | some fi =>
      have hex : FS.existsF fs cfg.kubeconfig_gke_path = true := by
        unfold FS.existsF
        rw [h]
        rfl
      by_cases hw : env.writeOk (cfg.kubeconfig_gke_path ++ ".backup." ++ toString t) = true <;>
        simp [hex, hw]
  · have hc : ¬ (force = false ∧
        isKubeconfigValid env fs cfg.kubeconfig_gke_path "gke" = true) := by
      rcases hgfp with h | h <;> simp [h]
    by_cases hex : FS.existsF fs cfg.kubeconfig_gke_path = true
    · refine ⟨(gkeLoop env cfg.kubeconfig_gke_path t
        (createBackup env fs t cfg.kubeconfig_gke_path).fs attemptList).evs, ?_,
        fun e he => gkeLoop_no_backup env cfg.kubeconfig_gke_path _ _ _ e he⟩
      simp [createGkeKubeconfig, hc, ensureDirectoryExists, hgdir, hex]
    · refine ⟨(gkeLoop env cfg.kubeconfig_gke_path t fs attemptList).evs, ?_,
        fun e he => gkeLoop_no_backup env cfg.kubeconfig_gke_path _ _ _ e he⟩
      simp [createGkeKubeconfig, hc, ensureDirectoryExists, hgdir, hex]
  · have hc : ¬ (force = false ∧
        isKubeconfigValid env fs cfg.kubeconfig_hosted_path "hosted" = true) := by
      rcases hhfp with h | h <;> simp [h]
    by_cases hex : FS.existsF fs cfg.kubeconfig_hosted_path = true
    · refine ⟨(hostedLoop env cfg.dry_run cfg.kubeconfig_hosted_path t
        (createBackup env fs t cfg.kubeconfig_hosted_path).fs attemptList).evs, ?_,
        fun e he => hostedLoop_no_backup env cfg.dry_run cfg.kubeconfig_hosted_path _ _ _ e he⟩
      simp [createHostedKubeconfig, hc, ensureDirectoryExists, hhdir, hex]
    · refine ⟨(hostedLoop env cfg.dry_run cfg.kubeconfig_hosted_path t fs attemptList).evs, ?_,
        fun e he => hostedLoop_no_backup env cfg.dry_run cfg.kubeconfig_hosted_path _ _ _ e he⟩
      simp [createHostedKubeconfig, hc, ensureDirectoryExists, hhdir, hex]

theorem backup_once_before_loop_witness :
    (FS.existsF c4fs "/r/gke" = true) ∧
    ((createBackup c4env c4fs 100 "/r/gke").evs =
      if FS.existsF c4fs demoCfg.kubeconfig_gke_path = true ∧
          c4env.writeOk (demoCfg.kubeconfig_gke_path ++ ".backup." ++ toString 100) = true
      then [Ev.backupEv demoCfg.kubeconfig_gke_path
              (demoCfg.kubeconfig_gke_path ++ ".backup." ++ toString 100)]
      else []) ∧
    (∃ levs,
      (createGkeKubeconfig c4env demoCfg true c4fs 100).evs =
        Ev.mkdirEv (dirname demoCfg.kubeconfig_gke_path) 0o700 ::
          (if FS.existsF c4fs demoCfg.kubeconfig_gke_path = true
           then (createBackup c4env c4fs 100 demoCfg.kubeconfig_gke_path).evs else []) ++ levs ∧
      (∀ e ∈ levs, e.isBackup = false)) := by
  have h := backup_once_before_loop c4env demoCfg true c4fs 100
    (Or.inl rfl) rfl (Or.inl rfl) rfl
  exact ⟨by decide, h.1, h.2.1⟩

/-! ### Secure-write contract (C5) -/

/-- Environment for the C5 counterexample: the GKE acquisition succeeds
at once by writing the target with permissive mode 0644 (as the external
tool may), and every `os.chmod` fails. -/
def c5env : Env :=
  { demoEnvOk with
    gkeAcquire := fun _ fsx => (true, FS.write fsx "/r/gke" ⟨"GOOD", 0o644, 50⟩)
    chmodOk := fun _ => false }

/-- C5 counterexample: a successful GKE acquisition run whose trace
contains no temporary-file write, no chmod and no rename — the external
tool wrote the target directly — and which returns success even though
`_set_secure_permissions` failed, leaving the credential file with mode
0644, which allows group/world access.  This refutes both the
"temporary sibling file + chmod 0600 + atomic rename for both roles"
part of the claim and the "after any successful write the mode bits
forbid group and world access" part. -/
theorem secure_write_cex :
    createGkeKubeconfig c5env demoCfg true [] 0 =
      ⟨true, [("/r/gke", ⟨"GOOD", 0o644, 50⟩)], 0,
       [Ev.mkdirEv "/r" 0o700, Ev.attemptEv "gke" 1, Ev.acquireEv "gke" 1]⟩ ∧
    0o644 &&& 0o077 ≠ 0 :=
  ⟨by decide, by decide⟩

/-- Both fetch and decode succeed on attempt `n` of
`create_hosted_kubeconfig` (the complement of `hostedAcquireFails`). -/
def hostedFetchGood (env : Env) (n : Nat) : Prop :=
  (env.hostedSecret n).1 = true ∧ ¬ pyStrip (env.hostedSecret n).2 = "" ∧
  ∃ d, env.b64decode (env.hostedSecret n).2 = some d ∧ hostedDataOk env d = true

theorem hostedLoop_writefail_step (env : Env) (path : String) (t : Nat) (fs : FS)
    (n : Nat) (rest : List Nat) (hne : rest ≠ [])
    (hw : env.writeOk (path ++ ".tmp") = false) (hf : hostedFetchGood env n) :
    hostedLoop env false path t fs (n :: rest) =
      ⟨(hostedLoop env false path t fs rest).ok,
       (hostedLoop env false path t fs rest).fs,
       (hostedLoop env false path t fs rest).time,
       Ev.attemptEv "hosted" n :: Ev.acquireEv "hosted" n ::
         (hostedLoop env false path t fs rest).evs⟩ := by
  obtain ⟨h1, h2, d, hd, hdo⟩ := hf
  have hemp : rest.isEmpty = false := by
    cases rest with
    | nil => exact absurd rfl hne
    | cons a as => rfl
  have hc1 : ¬ ((env.hostedSecret n).1 = false ∨ pyStrip (env.hostedSecret n).2 = "") := by
    rintro (h | h)
    · rw [h1] at h
      cases h
    · exact h2 h
  simp [hostedLoop, hc1, hemp, hd, hdo, hostedWriteStep, hw]

theorem hostedLoop_writefail_last (env : Env) (path : String) (t : Nat) (fs : FS)
    (n : Nat) (hw : env.writeOk (path ++ ".tmp") = false) (hf : hostedFetchGood env n) :
    hostedLoop env false path t fs [n] =
      ⟨(attemptRecovery env fs path "hosted").ok,
       (attemptRecovery env fs path "hosted").fs,
       t,
       Ev.attemptEv "hosted" n :: Ev.acquireEv "hosted" n ::
         (attemptRecovery env fs path "hosted").evs⟩ := by
  obtain ⟨h1, h2, d, hd, hdo⟩ := hf
  have hc1 : ¬ ((env.hostedSecret n).1 = false ∨ pyStrip (env.hostedSecret n).2 = "") := by
    rintro (h | h)
    · rw [h1] at h
      cases h
    · exact h2 h
  simp [hostedLoop, hc1, hd, hdo, hostedWriteStep, hw]

theorem hostedLoop_writefail (env : Env) (path : String) (t : Nat) (fs1 : FS)
    (hw : env.writeOk (path ++ ".tmp") = false) (hf : ∀ n, hostedFetchGood env n) :
    hostedLoop env false path t fs1 attemptList =
      ⟨(attemptRecovery env fs1 path "hosted").ok,
       (attemptRecovery env fs1 path "hosted").fs,
       t,
       [Ev.attemptEv "hosted" 1, Ev.acquireEv "hosted" 1,
        Ev.attemptEv "hosted" 2, Ev.acquireEv "hosted" 2,
        Ev.attemptEv "hosted" 3, Ev.acquireEv "hosted" 3] ++
         (attemptRecovery env fs1 path "hosted").evs⟩ := by
  have hs : attemptList = [1, 2, 3] := rfl
  rw [hs]
  rw [hostedLoop_writefail_step env path t fs1 1 [2, 3] (by simp) hw (hf 1)]
  rw [hostedLoop_writefail_step env path t fs1 2 [3] (by simp) hw (hf 2)]
  rw [hostedLoop_writefail_last env path t fs1 3 hw (hf 3)]
  simp

theorem validate_implies_read (env : Env) (fs : FS) (path ctype : String)
    (h : validateKubeconfigFile env fs path ctype = true) :
    ∃ fi, FS.read fs path = some fi := by
  unfold validateKubeconfigFile at h
  split at h
  · exact absurd h (by simp)
  next fi hread => exact ⟨fi, hread⟩

theorem attemptRecovery_has_recovery (env : Env) (fs : FS) (path ctype : String) :
    Ev.recoveryEv ctype ∈ (attemptRecovery env fs path ctype).evs := by
  show Ev.recoveryEv ctype ∈ Ev.recoveryEv ctype :: _
  exact List.mem_cons_self _ _

theorem gkeLoop_success_mode (env : Env) (path : String) (hch : env.chmodOk path = true) :
    ∀ l t fs, (gkeLoop env path t fs l).ok = true →
      (∀ e ∈ (gkeLoop env path t fs l).evs, e.isRecovery = false) →
      (FS.read (gkeLoop env path t fs l).fs path).map (·.mode) = some 0o600 := by
  intro l
  induction l with
  | nil =>
    intro t fs hok hrec
    have h := hrec (Ev.recoveryEv "gke") (attemptRecovery_has_recovery env fs path "gke")
    simp [Ev.isRecovery] at h
  | cons n rest ih =>
    intro t fs hok hrec
    by_cases hacq : (env.gkeAcquire n fs).1 = false
    · by_cases hemp : rest.isEmpty
      · have hred : gkeLoop env path t fs (n :: rest) =
            ⟨(attemptRecovery env (env.gkeAcquire n fs).2 path "gke").ok,
             (attemptRecovery env (env.gkeAcquire n fs).2 path "gke").fs, t,
             [Ev.attemptEv "gke" n, Ev.acquireEv "gke" n] ++
               (attemptRecovery env (env.gkeAcquire n fs).2 path "gke").evs⟩ := by
          simp [gkeLoop, hacq, hemp]
        rw [hred] at hrec
        have h := hrec (Ev.recoveryEv "gke")
          (List.mem_append_right _ (attemptRecovery_has_recovery env _ path "gke"))
        simp [Ev.isRecovery] at h
      · have hred : gkeLoop env path t fs (n :: rest) =
            ⟨(gkeLoop env path (t + retryDelay) (env.gkeAcquire n fs).2 rest).ok,
             (gkeLoop env path (t + retryDelay) (env.gkeAcquire n fs).2 rest).fs,
             (gkeLoop env path (t + retryDelay) (env.gkeAcquire n fs).2 rest).time,
             [Ev.attemptEv "gke" n, Ev.acquireEv "gke" n, Ev.sleepEv retryDelay] ++
               (gkeLoop env path (t + retryDelay) (env.gkeAcquire n fs).2 rest).evs⟩ := by
          simp [gkeLoop, hacq, hemp]
        rw [hred] at hok hrec ⊢
        exact ih _ _ hok (fun e he => hrec e (List.mem_append_right _ he))
    · by_cases hval : validateKubeconfigFile env (env.gkeAcquire n fs).2 path "gke" = true
      · have hred : gkeLoop env path t fs (n :: rest) =
            ⟨true, FS.chmodF (env.gkeAcquire n fs).2 path 0o600, t,
             [Ev.attemptEv "gke" n, Ev.acquireEv "gke" n, Ev.chmodEv path 0o600]⟩ := by
          simp [gkeLoop, hacq, hval, setSecurePermissions, hch]
        rw [hred]
        obtain ⟨fi, hfi⟩ := validate_implies_read env (env.gkeAcquire n fs).2 path "gke" hval
        show (FS.read (FS.chmodF (env.gkeAcquire n fs).2 path 0o600) path).map (·.mode) =
          some 0o600
        rw [read_chmodF, if_pos rfl, hfi]
        rfl
      · by_cases hemp : rest.isEmpty
        · have hred : gkeLoop env path t fs (n :: rest) =
              ⟨(attemptRecovery env (env.gkeAcquire n fs).2 path "gke").ok,
               (attemptRecovery env (env.gkeAcquire n fs).2 path "gke").fs, t,
               [Ev.attemptEv "gke" n, Ev.acquireEv "gke" n] ++
                 (attemptRecovery env (env.gkeAcquire n fs).2 path "gke").evs⟩ := by
            simp [gkeLoop, hacq, hval, hemp]
          rw [hred] at hrec
          have h := hrec (Ev.recoveryEv "gke")
            (List.mem_append_right _ (attemptRecovery_has_recovery env _ path "gke"))
          simp [Ev.isRecovery] at h
        · have hred : gkeLoop env path t fs (n :: rest) =
              ⟨(gkeLoop env path (t + retryDelay) (env.gkeAcquire n fs).2 rest).ok,
               (gkeLoop env path (t + retryDelay) (env.gkeAcquire n fs).2 rest).fs,
               (gkeLoop env path (t + retryDelay) (env.gkeAcquire n fs).2 rest).time,
               [Ev.attemptEv "gke" n, Ev.acquireEv "gke" n, Ev.sleepEv retryDelay] ++
                 (gkeLoop env path (t + retryDelay) (env.gkeAcquire n fs).2 rest).evs⟩ := by
            simp [gkeLoop, hacq, hval, hemp]
          rw [hred] at hok hrec ⊢
          exact ih _ _ hok (fun e he => hrec e (List.mem_append_right _ he))

theorem hostedWriteStep_success (env : Env) (fs : FS) (t : Nat) (path content : String)
    (h : (hostedWriteStep env fs t path content).1 = true) :
    (hostedWriteStep env fs t path content).2.2 =
      [Ev.tempWriteEv (path ++ ".tmp"), Ev.chmodEv (path ++ ".tmp") 0o600,
       Ev.renameEv (path ++ ".tmp") path] ∧
    FS.read (hostedWriteStep env fs t path content).2.1 path = some ⟨content, 0o600, t⟩ := by
  unfold hostedWriteStep at h ⊢
  by_cases hw : env.writeOk (path ++ ".tmp") = true
  · by_cases hch : env.chmodOk (path ++ ".tmp") = true
    · by_cases hr : env.renameOk (path ++ ".tmp") = true
      · have hread2 : FS.read (FS.chmodF (FS.write fs (path ++ ".tmp")
            ⟨content, 0o644, t⟩) (path ++ ".tmp") 0o600) (path ++ ".tmp") =
            some ⟨content, 0o600, t⟩ := by
          rw [read_chmodF, if_pos rfl, read_write, if_pos rfl]
          rfl
        simp only [hw, hch, hr, if_pos rfl, if_true]
        refine ⟨trivial, ?_⟩
        rw [read_renameF _ _ _ _ hread2 path, if_pos rfl]
      · simp [hw, hch, hr] at h
    · simp [hw, hch] at h
  · simp [hw] at h

theorem hostedLoop_success_secure (env : Env) (path : String) :
    ∀ l t fs, (hostedLoop env false path t fs l).ok = true →
      (∀ e ∈ (hostedLoop env false path t fs l).evs, e.isRecovery = false) →
      ((FS.read (hostedLoop env false path t fs l).fs path).map (·.mode) = some 0o600 ∧
       [Ev.tempWriteEv (path ++ ".tmp"), Ev.chmodEv (path ++ ".tmp") 0o600,
        Ev.renameEv (path ++ ".tmp") path].Sublist (hostedLoop env false path t fs l).evs) := by
  intro l
  induction l with
  | nil =>
    intro t fs hok hrec
    have h := hrec (Ev.recoveryEv "hosted") (attemptRecovery_has_recovery env fs path "hosted")
    simp [Ev.isRecovery] at h
  | cons n rest ih =>
    intro t fs hok hrec
    by_cases hc1 : (env.hostedSecret n).1 = false ∨ pyStrip (env.hostedSecret n).2 = ""
    · by_cases hemp : rest.isEmpty
      · have hred : hostedLoop env false path t fs (n :: rest) =
            ⟨(attemptRecovery env fs path "hosted").ok,
             (attemptRecovery env fs path "hosted").fs, t,
             [Ev.attemptEv "hosted" n, Ev.acquireEv "hosted" n] ++
               (attemptRecovery env fs path "hosted").evs⟩ := by
          simp [hostedLoop, hc1, hemp]
        rw [hred] at hrec
        have h := hrec (Ev.recoveryEv "hosted")
          (List.mem_append_right _ (attemptRecovery_has_recovery env _ path "hosted"))
        simp [Ev.isRecovery] at h
      · have hred : hostedLoop env false path t fs (n :: rest) =
            ⟨(hostedLoop env false path (t + retryDelay) fs rest).ok,
             (hostedLoop env false path (t + retryDelay) fs rest).fs,
             (hostedLoop env false path (t + retryDelay) fs rest).time,
             [Ev.attemptEv "hosted" n, Ev.acquireEv "hosted" n, Ev.sleepEv retryDelay] ++
               (hostedLoop env false path (t + retryDelay) fs rest).evs⟩ := by
          simp [hostedLoop, hc1, hemp]
        rw [hred] at hok hrec ⊢
        obtain ⟨h1, h2⟩ := ih _ _ hok (fun e he => hrec e (List.mem_append_right _ he))
        exact ⟨h1, h2.trans (List.sublist_append_right _ _)⟩
    · cases hb : env.b64decode (env.hostedSecret n).2 with
      | none =>
        by_cases hemp : rest.isEmpty
        · have hred : hostedLoop env false path t fs (n :: rest) =
              ⟨(attemptRecovery env fs path "hosted").ok,
               (attemptRecovery env fs path "hosted").fs, t,
               [Ev.attemptEv "hosted" n, Ev.acquireEv "hosted" n] ++
                 (attemptRecovery env fs path "hosted").evs⟩ := by
            simp [hostedLoop, hc1, hemp, hb]
          rw [hred] at hrec
          have h := hrec (Ev.recoveryEv "hosted")
            (List.mem_append_right _ (attemptRecovery_has_recovery env _ path "hosted"))
          simp [Ev.isRecovery] at h
        · have hred : hostedLoop env false path t fs (n :: rest) =
              ⟨(hostedLoop env false path (t + retryDelay) fs rest).ok,
               (hostedLoop env false path (t + retryDelay) fs rest).fs,
               (hostedLoop env false path (t + retryDelay) fs rest).time,
               [Ev.attemptEv "hosted" n, Ev.acquireEv "hosted" n, Ev.sleepEv retryDelay] ++
                 (hostedLoop env false path (t + retryDelay) fs rest).evs⟩ := by
            simp [hostedLoop, hc1, hemp, hb]
          rw [hred] at hok hrec ⊢
          obtain ⟨h1, h2⟩ := ih _ _ hok (fun e he => hrec e (List.mem_append_right _ he))
          exact ⟨h1, h2.trans (List.sublist_append_right _ _)⟩
      | some data =>
        by_cases hdo : hostedDataOk env data = true
        · by_cases hwok : (hostedWriteStep env fs t path data).1 = true
          · by_cases hval : validateKubeconfigFile env
                (hostedWriteStep env fs t path data).2.1 path "hosted" = true
            · have hred : hostedLoop env false path t fs (n :: rest) =
                  ⟨true, (hostedWriteStep env fs t path data).2.1, t,
                   [Ev.attemptEv "hosted" n, Ev.acquireEv "hosted" n] ++
                     (hostedWriteStep env fs t path data).2.2⟩ := by
                simp [hostedLoop, hc1, hb, hdo, hwok, hval]
              obtain ⟨hevs, hread⟩ := hostedWriteStep_success env fs t path data hwok
              rw [hred]
              constructor
              · show (FS.read (hostedWriteStep env fs t path data).2.1 path).map (·.mode) =
                  some 0o600
                rw [hread]
                rfl
              · show List.Sublist _ ([Ev.attemptEv "hosted" n, Ev.acquireEv "hosted" n] ++
                  (hostedWriteStep env fs t path data).2.2)
                rw [hevs]
                exact List.sublist_append_right _ _
            · by_cases hemp : rest.isEmpty
              · have hred : hostedLoop env false path t fs (n :: rest) =
                    ⟨(attemptRecovery env (hostedWriteStep env fs t path data).2.1 path
                        "hosted").ok,
                     (attemptRecovery env (hostedWriteStep env fs t path data).2.1 path
                        "hosted").fs, t,
                     [Ev.attemptEv "hosted" n, Ev.acquireEv "hosted" n] ++
                       (hostedWriteStep env fs t path data).2.2 ++
                       (attemptRecovery env (hostedWriteStep env fs t path data).2.1 path
                          "hosted").evs⟩ := by
                  simp [hostedLoop, hc1, hemp, hb, hdo, hwok, hval]
                rw [hred] at hrec
                have h := hrec (Ev.recoveryEv "hosted")
                  (List.mem_append_right _ (attemptRecovery_has_recovery env _ path "hosted"))
                simp [Ev.isRecovery] at h
              · have hred : hostedLoop env false path t fs (n :: rest) =
                    ⟨(hostedLoop env false path (t + retryDelay)
                        (hostedWriteStep env fs t path data).2.1 rest).ok,
                     (hostedLoop env false path (t + retryDelay)
                        (hostedWriteStep env fs t path data).2.1 rest).fs,
                     (hostedLoop env false path (t + retryDelay)
                        (hostedWriteStep env fs t path data).2.1 rest).time,
                     [Ev.attemptEv "hosted" n, Ev.acquireEv "hosted" n] ++
                       ((hostedWriteStep env fs t path data).2.2 ++ Ev.sleepEv retryDelay ::
                         (hostedLoop env false path (t + retryDelay)
                           (hostedWriteStep env fs t path data).2.1 rest).evs)⟩ := by
                  simp [hostedLoop, hc1, hemp, hb, hdo, hwok, hval]
                rw [hred] at hok hrec ⊢
                obtain ⟨h1, h2⟩ := ih _ _ hok (fun e he => hrec e
                  (List.mem_append_right _ (List.mem_append_right _ (List.mem_cons_of_mem _ he))))
                refine ⟨h1, ?_⟩
                have h3 := (h2.cons (Ev.sleepEv retryDelay)).trans
                  (List.sublist_append_right (hostedWriteStep env fs t path data).2.2 _)
                exact h3.trans (List.sublist_append_right _ _)
          · by_cases hemp : rest.isEmpty
            · have hred : hostedLoop env false path t fs (n :: rest) =
                  ⟨(attemptRecovery env (hostedWriteStep env fs t path data).2.1 path
                      "hosted").ok,
                   (attemptRecovery env (hostedWriteStep env fs t path data).2.1 path
                      "hosted").fs, t,
                   [Ev.attemptEv "hosted" n, Ev.acquireEv "hosted" n] ++
                     (hostedWriteStep env fs t path data).2.2 ++
                     (attemptRecovery env (hostedWriteStep env fs t path data).2.1 path
                        "hosted").evs⟩ := by
                simp [hostedLoop, hc1, hemp, hb, hdo, hwok]
              rw [hred] at hrec
              have h := hrec (Ev.recoveryEv "hosted")
                (List.mem_append_right _ (attemptRecovery_has_recovery env _ path "hosted"))
              simp [Ev.isRecovery] at h
            · have hred : hostedLoop env false path t fs (n :: rest) =
                  ⟨(hostedLoop env false path t
                      (hostedWriteStep env fs t path data).2.1 rest).ok,
                   (hostedLoop env false path t
                      (hostedWriteStep env fs t path data).2.1 rest).fs,
                   (hostedLoop env false path t
                      (hostedWriteStep env fs t path data).2.1 rest).time,
                   [Ev.attemptEv "hosted" n, Ev.acquireEv "hosted" n] ++
                     ((hostedWriteStep env fs t path data).2.2 ++
                       (hostedLoop env false path t
                         (hostedWriteStep env fs t path data).2.1 rest).evs)⟩ := by
                simp [hostedLoop, hc1, hemp, hb, hdo, hwok]
              rw [hred] at hok hrec ⊢
              obtain ⟨h1, h2⟩ := ih _ _ hok (fun e he => hrec e
                (List.mem_append_right _ (List.mem_append_right _ he)))
              refine ⟨h1, ?_⟩
              have h3 := h2.trans
                (List.sublist_append_right (hostedWriteStep env fs t path data).2.2 _)
              exact h3.trans (List.sublist_append_right _ _)
        · by_cases hemp : rest.isEmpty
          · have hred : hostedLoop env false path t fs (n :: rest) =
                ⟨(attemptRecovery env fs path "hosted").ok,
                 (attemptRecovery env fs path "hosted").fs, t,
                 [Ev.attemptEv "hosted" n, Ev.acquireEv "hosted" n] ++
                   (attemptRecovery env fs path "hosted").evs⟩ := by
              simp [hostedLoop, hc1, hemp, hb, hdo]
            rw [hred] at hrec
            have h := hrec (Ev.recoveryEv "hosted")
              (List.mem_append_right _ (attemptRecovery_has_recovery env _ path "hosted"))
            simp [Ev.isRecovery] at h
          · have hred : hostedLoop env false path t fs (n :: rest) =
                ⟨(hostedLoop env false path (t + retryDelay) fs rest).ok,
                 (hostedLoop env false path (t + retryDelay) fs rest).fs,
                 (hostedLoop env false path (t + retryDelay) fs rest).time,
                 [Ev.attemptEv "hosted" n, Ev.acquireEv "hosted" n, Ev.sleepEv retryDelay] ++
                   (hostedLoop env false path (t + retryDelay) fs rest).evs⟩ := by
              simp [hostedLoop, hc1, hemp, hb, hdo]
            rw [hred] at hok hrec ⊢
            obtain ⟨h1, h2⟩ := ih _ _ hok (fun e he => hrec e (List.mem_append_right _ he))
            exact ⟨h1, h2.trans (List.sublist_append_right _ _)⟩

/-- C5 corrected/amended: for the hosted role (dry-run off), every
success reached through an acquisition attempt (no recovery event in the
trace) went through the temporary-sibling-file write: the trace contains,
in order, a write of `{path}.tmp`, a `chmod 0o600` of it, and its rename
onto the target, and the final credential file has mode 0600 (group and
world access forbidden); a hosted write-step failure is treated exactly
like an acquisition failure — the attempt is retried (immediately, with
no sleep) and after the third failure the recovery selector runs and its
verdict is returned, never a separate terminal failure class.  The GKE
role, by contrast, has no temporary-file step (see the counterexample):
the external tool writes the target directly, and after a validated
acquisition the file's mode is 0600 only via a separate chmod, when that
chmod succeeds. -/
theorem secure_write_contract (env : Env) (cfg : Config) (force : Bool) (fs : FS) (t : Nat)
    (hhfp : force = true ∨ isKubeconfigValid env fs cfg.kubeconfig_hosted_path "hosted" = false)
    (hhdir : env.dirOk (dirname cfg.kubeconfig_hosted_path) = true)
    (hdr : cfg.dry_run = false) :
    ((createHostedKubeconfig env cfg force fs t).ok = true →
      (∀ e ∈ (createHostedKubeconfig env cfg force fs t).evs, e.isRecovery = false) →
      ((FS.read (createHostedKubeconfig env cfg force fs t).fs
          cfg.kubeconfig_hosted_path).map (·.mode) = some 0o600 ∧
       [Ev.tempWriteEv (cfg.kubeconfig_hosted_path ++ ".tmp"),
        Ev.chmodEv (cfg.kubeconfig_hosted_path ++ ".tmp") 0o600,
        Ev.renameEv (cfg.kubeconfig_hosted_path ++ ".tmp")
          cfg.kubeconfig_hosted_path].Sublist
          (createHostedKubeconfig env cfg force fs t).evs)) ∧
    (env.writeOk (cfg.kubeconfig_hosted_path ++ ".tmp") = false →
      (∀ n, hostedFetchGood env n) →
      ∃ fsr pre,
        (createHostedKubeconfig env cfg force fs t).ok =
          (attemptRecovery env fsr cfg.kubeconfig_hosted_path "hosted").ok ∧
        (createHostedKubeconfig env cfg force fs t).evs =
          pre ++ [Ev.attemptEv "hosted" 1, Ev.acquireEv "hosted" 1,
            Ev.attemptEv "hosted" 2, Ev.acquireEv "hosted" 2,
            Ev.attemptEv "hosted" 3, Ev.acquireEv "hosted" 3] ++
            (attemptRecovery env fsr cfg.kubeconfig_hosted_path "hosted").evs ∧
        (∀ e ∈ pre, e.isAttempt = false ∧ e.isRecovery = false)) ∧
    (∀ force2 fs2 t2,
      (force2 = true ∨ isKubeconfigValid env fs2 cfg.kubeconfig_gke_path "gke" = false) →
      env.dirOk (dirname cfg.kubeconfig_gke_path) = true →
      env.chmodOk cfg.kubeconfig_gke_path = true →
      (createGkeKubeconfig env cfg force2 fs2 t2).ok = true →
      (∀ e ∈ (createGkeKubeconfig env cfg force2 fs2 t2).evs, e.isRecovery = false) →
      (FS.read (createGkeKubeconfig env cfg force2 fs2 t2).fs
        cfg.kubeconfig_gke_path).map (·.mode) = some 0o600) := by
  obtain ⟨fs1, bkevs, hrun, hbk⟩ := createHosted_unfold env cfg force fs t hhfp hhdir
  rw [hdr] at hrun
  refine ⟨?_, ?_, ?_⟩
  · intro hok hrec
    rw [hrun] at hok hrec ⊢
    have hrec2 : ∀ e ∈ (hostedLoop env false cfg.kubeconfig_hosted_path t fs1
        attemptList).evs, e.isRecovery = false := by
      intro e he
      exact hrec e (List.mem_cons_of_mem _ (List.mem_append_right _ he))
    obtain ⟨h1, h2⟩ := hostedLoop_success_secure env cfg.kubeconfig_hosted_path
      attemptList t fs1 hok hrec2
    exact ⟨h1, ((h2.trans (List.sublist_append_right bkevs _)).cons _)⟩
  · intro hw hf
    have hloop := hostedLoop_writefail env cfg.kubeconfig_hosted_path t fs1 hw hf
    refine ⟨fs1, Ev.mkdirEv (dirname cfg.kubeconfig_hosted_path) 0o700 :: bkevs, ?_, ?_, ?_⟩
    · rw [hrun, hloop]
    · rw [hrun, hloop]
      simp
    · intro e he
      rcases List.mem_cons.mp he with h | h
      · subst h; exact ⟨rfl, rfl⟩
      · obtain ⟨s, d, hsd⟩ := hbk e h
        subst hsd; exact ⟨rfl, rfl⟩
  · intro force2 fs2 t2 hfp2 hdir2 hch2 hok hrec
    obtain ⟨fs1g, bkevsg, hrung, hbkg⟩ := createGke_unfold env cfg force2 fs2 t2 hfp2 hdir2
    rw [hrung] at hok hrec ⊢
    have hrec2 : ∀ e ∈ (gkeLoop env cfg.kubeconfig_gke_path t2 fs1g attemptList).evs,
        e.isRecovery = false := by
      intro e he
      exact hrec e (List.mem_cons_of_mem _ (List.mem_append_right _ he))
    exact gkeLoop_success_mode env cfg.kubeconfig_gke_path hch2 attemptList t2 fs1g hok hrec2

/-- Environment where the hosted acquisition succeeds at the first
attempt with decodable content. -/
def c5wenv : Env :=
  { demoEnvOk with
    hostedSecret := fun _ => (true, "B64")
    b64decode := fun s => if s = "B64" then some "GOOD" else none }

theorem secure_write_contract_witness :
    (createHostedKubeconfig c5wenv demoCfg true [] 0).ok = true ∧
    ((FS.read (createHostedKubeconfig c5wenv demoCfg true [] 0).fs
        demoCfg.kubeconfig_hosted_path).map (·.mode) = some 0o600 ∧
     [Ev.tempWriteEv (demoCfg.kubeconfig_hosted_path ++ ".tmp"),
      Ev.chmodEv (demoCfg.kubeconfig_hosted_path ++ ".tmp") 0o600,
      Ev.renameEv (demoCfg.kubeconfig_hosted_path ++ ".tmp")
        demoCfg.kubeconfig_hosted_path].Sublist
        (createHostedKubeconfig c5wenv demoCfg true [] 0).evs) := by
  have h := (secure_write_contract c5wenv demoCfg true [] 0 (Or.inl rfl) rfl rfl).1
    (by decide) (by decide)
  exact ⟨by decide, h⟩

/-! ### Refresh ordering and frame (C9) -/

theorem isValid_implies_read (env : Env) (fs : FS) (path ctype : String)
    (h : isKubeconfigValid env fs path ctype = true) :
    ∃ fi, FS.read fs path = some fi := by
  unfold isKubeconfigValid at h
  split at h
  · exact absurd h (by simp)
  next fi hread => exact ⟨fi, hread⟩

theorem createBackup_frame (env : Env) (fs : FS) (t : Nat) (path q : String)
    (hq : ∀ s, q ≠ path ++ ".backup." ++ s) :
    FS.read (createBackup env fs t path).fs q = FS.read fs q := by
  unfold createBackup
  cases h : FS.read fs path with
  | none => rfl
  | some fi =>
    by_cases hw : env.writeOk (path ++ ".backup." ++ toString t) = true
    · simp only [hw, if_true]
      rw [read_write, if_neg (hq (toString t))]
    · simp [hw]

theorem recoveryLoop_frame (env : Env) (fs : FS) (path ctype q : String)
    (hqp : q ≠ path) :
    ∀ l, (∀ b ∈ l, b ≠ q) →
      FS.read (recoveryLoop env fs path ctype l).fs q = FS.read fs q := by
  intro l
  induction l with
  | nil => intro _; rfl
  | cons b rest ih =>
    intro hb
    by_cases hv : isKubeconfigValid env fs b ctype = true
    · by_cases hr : env.renameOk b = true
      · have hred : (recoveryLoop env fs path ctype (b :: rest)).fs =
            FS.renameF fs b path := by
          simp [recoveryLoop, hv, hr]
        rw [hred]
        obtain ⟨fi, hfi⟩ := isValid_implies_read env fs b ctype hv
        rw [read_renameF fs b path fi hfi q, if_neg hqp, if_neg]
        intro hqb
        exact hb b (List.mem_cons_self b rest) hqb.symm
      · have hred : (recoveryLoop env fs path ctype (b :: rest)).fs =
            (recoveryLoop env fs path ctype rest).fs := by
          simp [recoveryLoop, hv, hr]
        rw [hred]
        exact ih (fun a ha => hb a (List.mem_cons_of_mem b ha))
    · have hred : (recoveryLoop env fs path ctype (b :: rest)).fs =
          (recoveryLoop env fs path ctype rest).fs := by
        simp [recoveryLoop, hv]
      rw [hred]
      exact ih (fun a ha => hb a (List.mem_cons_of_mem b ha))

theorem attemptRecovery_frame (env : Env) (fs : FS) (path ctype q : String)
    (hqp : q ≠ path) (hqb : backupMatch path q = false) :
    FS.read (attemptRecovery env fs path ctype).fs q = FS.read fs q := by
  have hfs : (attemptRecovery env fs path ctype).fs =
      (recoveryLoop env fs path ctype (recoveryCandidates fs path)).fs := rfl
  rw [hfs]
  apply recoveryLoop_frame env fs path ctype q hqp
  intro b hbmem hbq
  subst hbq
  have := ((recoveryCandidates_mem fs path b).mp hbmem).2
  rw [hqb] at this
  cases this

theorem gkeLoop_frame (env : Env) (path q : String)
    (hqp : q ≠ path) (hqb : backupMatch path q = false)
    (hloc : ∀ n fsx, FS.read (env.gkeAcquire n fsx).2 q = FS.read fsx q) :
    ∀ l t fs, FS.read (gkeLoop env path t fs l).fs q = FS.read fs q := by
  intro l
  induction l with
  | nil =>
    intro t fs
    exact attemptRecovery_frame env fs path "gke" q hqp hqb
  | cons n rest ih =>
    intro t fs
    by_cases hacq : (env.gkeAcquire n fs).1 = false
    · by_cases hemp : rest.isEmpty
      · have hred : (gkeLoop env path t fs (n :: rest)).fs =
            (attemptRecovery env (env.gkeAcquire n fs).2 path "gke").fs := by
          simp [gkeLoop, hacq, hemp]
        rw [hred, attemptRecovery_frame env _ path "gke" q hqp hqb, hloc n fs]
      · have hred : (gkeLoop env path t fs (n :: rest)).fs =
            (gkeLoop env path (t + retryDelay) (env.gkeAcquire n fs).2 rest).fs := by
          simp [gkeLoop, hacq, hemp]
        rw [hred, ih _ _, hloc n fs]
    · by_cases hval : validateKubeconfigFile env (env.gkeAcquire n fs).2 path "gke" = true
      · by_cases hch : env.chmodOk path = true
        · have hred : (gkeLoop env path t fs (n :: rest)).fs =
              FS.chmodF (env.gkeAcquire n fs).2 path 0o600 := by
            simp [gkeLoop, hacq, hval, setSecurePermissions, hch]
          rw [hred, read_chmodF, if_neg hqp, hloc n fs]
        · have hred : (gkeLoop env path t fs (n :: rest)).fs =
              (env.gkeAcquire n fs).2 := by
            simp [gkeLoop, hacq, hval, setSecurePermissions, hch]
          rw [hred, hloc n fs]
      · by_cases hemp : rest.isEmpty
        · have hred : (gkeLoop env path t fs (n :: rest)).fs =
              (attemptRecovery env (env.gkeAcquire n fs).2 path "gke").fs := by
            simp [gkeLoop, hacq, hval, hemp]
          rw [hred, attemptRecovery_frame env _ path "gke" q hqp hqb, hloc n fs]
        · have hred : (gkeLoop env path t fs (n :: rest)).fs =
              (gkeLoop env path (t + retryDelay) (env.gkeAcquire n fs).2 rest).fs := by
            simp [gkeLoop, hacq, hval, hemp]
          rw [hred, ih _ _, hloc n fs]

theorem createGke_frame (env : Env) (cfg : Config) (force : Bool) (fs : FS) (t : Nat)
    (q : String)
    (hqp : q ≠ cfg.kubeconfig_gke_path)
    (hqb : backupMatch cfg.kubeconfig_gke_path q = false)
    (hqb2 : ∀ s, q ≠ cfg.kubeconfig_gke_path ++ ".backup." ++ s)
    (hloc : ∀ n fsx, FS.read (env.gkeAcquire n fsx).2 q = FS.read fsx q) :
    FS.read (createGkeKubeconfig env cfg force fs t).fs q = FS.read fs q := by
  unfold createGkeKubeconfig
  by_cases hc : (force = false ∧
      isKubeconfigValid env fs cfg.kubeconfig_gke_path "gke" = true)
  · simp [hc]
  · by_cases hdir2 : ensureDirectoryExists env cfg.kubeconfig_gke_path = false
    · simp [hc, hdir2]
    · by_cases hex : FS.existsF fs cfg.kubeconfig_gke_path = true
      · have hred : (createGkeKubeconfig env cfg force fs t).fs =
            (gkeLoop env cfg.kubeconfig_gke_path t
              (createBackup env fs t cfg.kubeconfig_gke_path).fs attemptList).fs := by
          simp [createGkeKubeconfig, hc, hdir2, hex]
        show FS.read (createGkeKubeconfig env cfg force fs t).fs q = FS.read fs q
        rw [hred, gkeLoop_frame env cfg.kubeconfig_gke_path q hqp hqb hloc,
          createBackup_frame env fs t cfg.kubeconfig_gke_path q hqb2]
      · have hred : (createGkeKubeconfig env cfg force fs t).fs =
            (gkeLoop env cfg.kubeconfig_gke_path t fs attemptList).fs := by
          simp [createGkeKubeconfig, hc, hdir2, hex]
        show FS.read (createGkeKubeconfig env cfg force fs t).fs q = FS.read fs q
        rw [hred, gkeLoop_frame env cfg.kubeconfig_gke_path q hqp hqb hloc]

/-- C9: `refresh_kubeconfigs` force-recreates the GKE credential first;
if that fails it returns `false` having run only the GKE operation (its
result is exactly the GKE run's: same filesystem, clock and events — the
hosted acquisition is never invoked) and the hosted credential file is
untouched; if the GKE run succeeds, the hosted credential is
force-recreated on the GKE run's state and the overall result is the
hosted run's verdict, with the GKE events preceding the hosted events;
overall success holds iff both forced recreations succeed.  The
hypotheses say the external GKE acquisition tool writes only the GKE
target path, and that the hosted path is neither the GKE path nor a
possible backup of it. -/
theorem refresh_order_and_frame (env : Env) (cfg : Config) (fs : FS) (t : Nat)
    (hloc : ∀ n fsx, FS.read (env.gkeAcquire n fsx).2 cfg.kubeconfig_hosted_path =
      FS.read fsx cfg.kubeconfig_hosted_path)
    (hne : cfg.kubeconfig_hosted_path ≠ cfg.kubeconfig_gke_path)
    (hnb : backupMatch cfg.kubeconfig_gke_path cfg.kubeconfig_hosted_path = false)
    (hnb2 : ∀ s, cfg.kubeconfig_hosted_path ≠ cfg.kubeconfig_gke_path ++ ".backup." ++ s) :
    ((refreshKubeconfigs env cfg fs t).ok = true ↔
      ((createGkeKubeconfig env cfg true fs t).ok = true ∧
       (createHostedKubeconfig env cfg true (createGkeKubeconfig env cfg true fs t).fs
         (createGkeKubeconfig env cfg true fs t).time).ok = true)) ∧
    ((createGkeKubeconfig env cfg true fs t).ok = false →
      refreshKubeconfigs env cfg fs t =
        ⟨false, (createGkeKubeconfig env cfg true fs t).fs,
         (createGkeKubeconfig env cfg true fs t).time,
         (createGkeKubeconfig env cfg true fs t).evs⟩ ∧
      FS.read (refreshKubeconfigs env cfg fs t).fs cfg.kubeconfig_hosted_path =
        FS.read fs cfg.kubeconfig_hosted_path) ∧
    ((createGkeKubeconfig env cfg true fs t).ok = true →
      refreshKubeconfigs env cfg fs t =
        ⟨(createHostedKubeconfig env cfg true (createGkeKubeconfig env cfg true fs t).fs
            (createGkeKubeconfig env cfg true fs t).time).ok,
         (createHostedKubeconfig env cfg true (createGkeKubeconfig env cfg true fs t).fs
            (createGkeKubeconfig env cfg true fs t).time).fs,
         (createHostedKubeconfig env cfg true (createGkeKubeconfig env cfg true fs t).fs
            (createGkeKubeconfig env cfg true fs t).time).time,
         (createGkeKubeconfig env cfg true fs t).evs ++
           (createHostedKubeconfig env cfg true (createGkeKubeconfig env cfg true fs t).fs
             (createGkeKubeconfig env cfg true fs t).time).evs⟩) := by
  have hframe : FS.read (createGkeKubeconfig env cfg true fs t).fs
      cfg.kubeconfig_hosted_path = FS.read fs cfg.kubeconfig_hosted_path :=
    createGke_frame env cfg true fs t cfg.kubeconfig_hosted_path hne hnb hnb2 hloc
  by_cases hg : (createGkeKubeconfig env cfg true fs t).ok = true
  · have hred : refreshKubeconfigs env cfg fs t =
        ⟨(createHostedKubeconfig env cfg true (createGkeKubeconfig env cfg true fs t).fs
            (createGkeKubeconfig env cfg true fs t).time).ok,
         (createHostedKubeconfig env cfg true (createGkeKubeconfig env cfg true fs t).fs
            (createGkeKubeconfig env cfg true fs t).time).fs,
         (createHostedKubeconfig env cfg true (createGkeKubeconfig env cfg true fs t).fs
            (createGkeKubeconfig env cfg true fs t).time).time,
         (createGkeKubeconfig env cfg true fs t).evs ++
           (createHostedKubeconfig env cfg true (createGkeKubeconfig env cfg true fs t).fs
             (createGkeKubeconfig env cfg true fs t).time).evs⟩ := by
      unfold refreshKubeconfigs
      simp [hg]
    refine ⟨?_, ?_, fun _ => hred⟩
    · rw [hred]
      simp [hg]
    · intro hg2
      rw [hg] at hg2
      cases hg2
  · have hgf : (createGkeKubeconfig env cfg true fs t).ok = false := by
      cases hb : (createGkeKubeconfig env cfg true fs t).ok
      · rfl
      · exact absurd hb hg
    have hred : refreshKubeconfigs env cfg fs t =
        ⟨false, (createGkeKubeconfig env cfg true fs t).fs,
         (createGkeKubeconfig env cfg true fs t).time,
         (createGkeKubeconfig env cfg true fs t).evs⟩ := by
      unfold refreshKubeconfigs
      simp [hgf]
    refine ⟨?_, fun _ => ⟨hred, ?_⟩, ?_⟩
    · rw [hred]
      simp [hgf]
    · rw [hred]
      exact hframe
    · intro hg2
      rw [hgf] at hg2
      cases hg2

theorem refresh_order_and_frame_witness :
    (∀ n fsx, FS.read (failEnv.gkeAcquire n fsx).2 demoCfg.kubeconfig_hosted_path =
      FS.read fsx demoCfg.kubeconfig_hosted_path) ∧
    ((createGkeKubeconfig failEnv demoCfg true demoFS 0).ok = false →
      refreshKubeconfigs failEnv demoCfg demoFS 0 =
        ⟨false, (createGkeKubeconfig failEnv demoCfg true demoFS 0).fs,
         (createGkeKubeconfig failEnv demoCfg true demoFS 0).time,
         (createGkeKubeconfig failEnv demoCfg true demoFS 0).evs⟩ ∧
      FS.read (refreshKubeconfigs failEnv demoCfg demoFS 0).fs
          demoCfg.kubeconfig_hosted_path =
        FS.read demoFS demoCfg.kubeconfig_hosted_path) := by
  have hnb2 : ∀ s, demoCfg.kubeconfig_hosted_path ≠
      demoCfg.kubeconfig_gke_path ++ ".backup." ++ s := by
    intro s h
    have hlen := congrArg String.length h
    rw [String.length_append, String.length_append] at hlen
    have h1 : (demoCfg.kubeconfig_hosted_path).length = 9 := rfl
    have h2 : (demoCfg.kubeconfig_gke_path).length = 6 := rfl
    have h3 : (".backup.").length = 8 := rfl
    rw [h1, h2, h3] at hlen
    omega
  have h := refresh_order_and_frame failEnv demoCfg demoFS 0
    (fun _ _ => rfl) (by decide) (by decide) hnb2
  exact ⟨fun _ _ => rfl, h.2.1⟩
